import Mathlib

/-!
Verification development for the CaptainHook control-markup engine
(`captainhook/parser.py`, `captainhook/core.py`, `captainhook/hooks.py`,
`captainhook/filters.py`, `captainhook/busy_bridge.py`).

The Python code is shallowly embedded: Python values crossing the
engine's boundaries are modelled by the inductive type `PyVal`, where
each container carries a mutability marker (`mutable = true` models a
plain `dict`/`list`/`set`, `mutable = false` models the read-only
counterpart `MappingProxyType`/`tuple`/`frozenset`).  Exceptions are
modelled by `Except String`.  Side-effect-only hook emission (wrapped in
`try/except: pass` in the source, so it can never change a result) is
elided; actual handler invocations are recorded in an explicit trace so
that "the handler was never invoked" is statable.
-/

namespace CaptainHook

/-- A Python value crossing an engine boundary.  Containers carry a
mutability flag: `pdict es true` is a plain `dict`, `pdict es false` a
`MappingProxyType`; `plist xs true` is a `list`, `plist xs false` a
`tuple`; `pset xs true` is a `set`, `pset xs false` a `frozenset`. -/
inductive PyVal : Type where
  | str (s : String)
  | int (n : Int)
  | bool (b : Bool)
  | none
  | pdict (entries : List (String × PyVal)) (mutable : Bool)
  | plist (items : List PyVal) (mutable : Bool)
  | pset (items : List PyVal) (mutable : Bool)

namespace PyVal

/-- Python truthiness of a value (`bool(v)`). -/
def truthy : PyVal → Bool
  | .str s => !s.isEmpty
  | .int n => n != 0
  | .bool b => b
  | .none => false
  | .pdict es _ => !es.isEmpty
  | .plist xs _ => !xs.isEmpty
  | .pset xs _ => !xs.isEmpty

end PyVal

/-- `d.get(k)` on an association-list model of a Python dict: the first
binding wins (our insertion helpers keep keys unique, as a dict does). -/
def dictGet {α : Type} (entries : List (String × α)) (k : String) : Option α :=
  (entries.find? (fun p => p.1 = k)).map (·.2)

/-- `d[k] = v` on the association-list model: updates the existing
binding in place (keeping its position, as a Python dict does) or
appends a new one. -/
def dictSet {α : Type} (entries : List (String × α)) (k : String) (v : α) :
    List (String × α) :=
  if entries.any (fun p => p.1 = k) then
    entries.map (fun p => if p.1 = k then (k, v) else p)
  else
    entries ++ [(k, v)]

/-- `base.update(other)` on the association-list model. -/
def dictUpdate {α : Type} (base other : List (String × α)) : List (String × α) :=
  other.foldl (fun acc p => dictSet acc p.1 p.2) base

/-- `k in d` on the association-list model. -/
def dictHas {α : Type} (entries : List (String × α)) (k : String) : Bool :=
  entries.any (fun p => p.1 = k)

/-! ## Value freezer

`hooks._freeze`, `filters._freeze` and `busy_bridge._freeze` are the
same function; `core._freeze_kwargs` is different (it round-trips the
dict through `MappingProxyType` and back, producing a fresh *plain*
dict). -/

/-- `_freeze(value)` from `hooks.py` / `filters.py` / `busy_bridge.py`:
`dict -> MappingProxyType(dict(value))`, `list -> tuple(value)`,
`set -> frozenset(value)`, `tuple -> tuple(value)`, anything else is
returned unchanged.  The conversion is shallow: the entries themselves
are passed through as they are. -/
def freeze : PyVal → PyVal
  | .pdict es true => .pdict es false
  | .plist xs _ => .plist xs false
  | .pset xs true => .pset xs false
  | v => v

/-- `_freeze_kwargs(values)` from `core.py`:
`dict(MappingProxyType(dict(values)))` is a fresh shallow copy that is a
plain, mutable dict again; the values are not converted. -/
def freeze_kwargs (entries : List (String × PyVal)) : List (String × PyVal) :=
  entries

/-- The `PyVal` view of what `core._freeze_kwargs` hands to a handler:
a plain (mutable) dict holding the same entries. -/
def freezeKwargsVal (entries : List (String × PyVal)) : PyVal :=
  .pdict (freeze_kwargs entries) true

mutual

/-- A value is deeply immutable when no mutable container is reachable
from it: scalars are, containers must be in their read-only form and
have deeply immutable members. -/
def deepImmutable : PyVal → Bool
  | .str _ => true
  | .int _ => true
  | .bool _ => true
  | .none => true
  | .pdict es m => !m && deepImmutableEntries es
  | .plist xs m => !m && deepImmutableList xs
  | .pset xs m => !m && deepImmutableList xs

/-- All values of a list are deeply immutable. -/
def deepImmutableList : List PyVal → Bool
  | [] => true
  | x :: xs => deepImmutable x && deepImmutableList xs

/-- All values of an association list are deeply immutable. -/
def deepImmutableEntries : List (String × PyVal) → Bool
  | [] => true
  | p :: ps => deepImmutable p.2 && deepImmutableEntries ps

end

/-- The top-level container of a value is in its read-only form
(scalars count as immutable). -/
def topImmutable : PyVal → Bool
  | .pdict _ m => !m
  | .plist _ m => !m
  | .pset _ m => !m
  | _ => true

/-! ## Tokenizer / parser (`captainhook/parser.py`)

Text is a `List Char` indexed by absolute positions, matching the
index-based Python scanner.  `ParseError` is `Except.error` carrying the
message. -/

/-- `s.strip()`: leading and trailing whitespace removed. -/
def pyStrip (s : String) : String :=
  String.mk (((s.toList.dropWhile Char.isWhitespace).reverse.dropWhile
    Char.isWhitespace).reverse)

/-- `s.startswith(pat)`. -/
def pyStartsWith (s pat : String) : Bool :=
  pat.toList.isPrefixOf s.toList

/-- `s.endswith(pat)`. -/
def pyEndsWith (s pat : String) : Bool :=
  pat.toList.reverse.isPrefixOf s.toList.reverse

/-- `s.lower()`. -/
def pyToLower (s : String) : String :=
  String.mk (s.toList.map Char.toLower)

/-- The apostrophe character (written by code point to keep source
scanners happy). -/
def squoteChar : Char := Char.ofNat 39

/-- The backslash character. -/
def backslashChar : Char := Char.ofNat 92

/-- `text[a:b]` as a `String`. -/
def pySlice (text : List Char) (a b : Nat) : String :=
  String.mk ((text.drop a).take (b - a))

/-- First character may start an identifier: `text[start].isalpha() or
text[start] == "_"`. -/
def isIdentStart (c : Char) : Bool := c.isAlpha || c = '_'

/-- Later identifier characters: `text[end].isalnum() or text[end] in
{"_", "-"}`. -/
def isIdentChar (c : Char) : Bool := c.isAlphanum || c = '_' || c = '-'

/-- Length of the leading run of identifier characters (the `while` loop
of `_read_identifier`). -/
def identLen : List Char → Nat
  | [] => 0
  | c :: rest => if isIdentChar c then identLen rest + 1 else 0

/-- Length of the leading run of whitespace (the `while ...isspace()`
loops of `_read_tag_token`). -/
def spaceLen : List Char → Nat
  | [] => 0
  | c :: rest => if c.isWhitespace then spaceLen rest + 1 else 0

/-- `_read_identifier(text, start)`: `(identifier or None, end index)`. -/
def read_identifier (text : List Char) (start : Nat) : Option String × Nat :=
  match text.drop start with
  | [] => (Option.none, start)
  | c :: rest =>
    if isIdentStart c then
      let e := start + 1 + identLen rest
      (Option.some (pySlice text start e), e)
    else (Option.none, start)

/-- `_find_cheatcode_close`: scans the suffix of the text (the absolute
position of its head is the `Nat` argument), honoring the running quote
and escape state; returns the absolute index of the `/` of an unquoted
`/]`, or the parse error.  The Python loop runs `while i < len(text)-1`,
i.e. while at least two characters remain. -/
def find_cheatcode_close : List Char → Nat → Option Char → Bool → Except String Nat
  | [], _, _, _ => .error "Malformed cheatcode: missing '/]'"
  | [_], _, _, _ => .error "Malformed cheatcode: missing '/]'"
  | c :: d :: rest, i, quote, escaped =>
    if escaped then
      find_cheatcode_close (d :: rest) (i + 1) quote false
    else if c = backslashChar then
      find_cheatcode_close (d :: rest) (i + 1) quote true
    else
      match quote with
      | Option.some q =>
        if c = q then find_cheatcode_close (d :: rest) (i + 1) Option.none false
        else find_cheatcode_close (d :: rest) (i + 1) (Option.some q) false
      | Option.none =>
        if c = '"' || c = squoteChar then
          find_cheatcode_close (d :: rest) (i + 1) (Option.some c) false
        else if c = '/' && d = ']' then .ok i
        else find_cheatcode_close (d :: rest) (i + 1) Option.none false

/-- Scanner modes of `shlex.split(arg_text, posix=True)` (which has
`whitespace_split=True`): between tokens, inside a word, inside single
or double quotes, or just after a backslash (escapes return to the word
state outside quotes, and only `"`-quotes honor escapes inside). -/
inductive SxMode : Type where
  | ws | word | squote | dquote | escWord | escDquote

/-- One pass of the `shlex` state machine over the remaining characters.
`cur` is the token built so far (reversed), `quoted` records whether the
token saw a quote (a quoted empty token is still emitted), `acc` the
finished tokens (reversed). -/
def shlexGo : List Char → SxMode → List Char → Bool → List String → Except String (List String)
  | [], .ws, _, _, acc => .ok acc.reverse
  | [], .word, cur, quoted, acc =>
    if cur.isEmpty && !quoted then .ok acc.reverse
    else .ok ((String.mk cur.reverse) :: acc).reverse
  | [], .squote, _, _, _ => .error "No closing quotation"
  | [], .dquote, _, _, _ => .error "No closing quotation"
  | [], .escWord, _, _, _ => .error "No escaped character"
  | [], .escDquote, _, _, _ => .error "No escaped character"
  | c :: rest, .ws, _, _, acc =>
    if c.isWhitespace then shlexGo rest .ws [] false acc
    else if c = backslashChar then shlexGo rest .escWord [] false acc
    else if c = squoteChar then shlexGo rest .squote [] true acc
    else if c = '"' then shlexGo rest .dquote [] true acc
    else shlexGo rest .word [c] false acc
  | c :: rest, .word, cur, quoted, acc =>
    if c.isWhitespace then
      if cur.isEmpty && !quoted then shlexGo rest .ws [] false acc
      else shlexGo rest .ws [] false ((String.mk cur.reverse) :: acc)
    else if c = backslashChar then shlexGo rest .escWord cur quoted acc
    else if c = squoteChar then shlexGo rest .squote cur true acc
    else if c = '"' then shlexGo rest .dquote cur true acc
    else shlexGo rest .word (c :: cur) quoted acc
  | c :: rest, .squote, cur, quoted, acc =>
    if c = squoteChar then shlexGo rest .word cur quoted acc
    else shlexGo rest .squote (c :: cur) quoted acc
  | c :: rest, .dquote, cur, quoted, acc =>
    if c = '"' then shlexGo rest .word cur quoted acc
    else if c = backslashChar then shlexGo rest .escDquote cur quoted acc
    else shlexGo rest .dquote (c :: cur) quoted acc
  | c :: rest, .escWord, cur, quoted, acc =>
    shlexGo rest .word (c :: cur) quoted acc
  | c :: rest, .escDquote, cur, quoted, acc =>
    if c = backslashChar || c = '"' then shlexGo rest .dquote (c :: cur) quoted acc
    else shlexGo rest .dquote (c :: backslashChar :: cur) quoted acc

/-- `shlex.split(s, posix=True)`. -/
def shlexSplit (s : String) : Except String (List String) :=
  shlexGo s.toList .ws [] false []

/-- Splits a token at its first `=` (`token.split("=", 1)`), when one is
present. -/
def splitFirstEq : List Char → Option (List Char × List Char)
  | [] => Option.none
  | c :: rest =>
    if c = '=' then Option.some ([], rest)
    else (splitFirstEq rest).map (fun p => (c :: p.1, p.2))

/-- The token-classification loop of `_parse_arg_tokens`: `key=value`
tokens with a valid identifier key become attributes (later duplicates
overwrite in place, as a dict), everything else a positional parameter
in source order. -/
def classifyArgTokens : List String → List (String × String) → List String →
    Except String (List (String × String) × List String)
  | [], attrs, params => .ok (attrs, params.reverse)
  | token :: rest, attrs, params =>
    match splitFirstEq token.toList with
    | Option.some (keyCs, valCs) =>
      let key := String.mk keyCs
      if key.isEmpty then
        .error ("Invalid attribute token '" ++ token ++ "'")
      else
        match read_identifier keyCs 0 with
        | (Option.some keyName, _) =>
          if keyName = key then
            classifyArgTokens rest (dictSet attrs key (String.mk valCs)) params
          else .error ("Invalid attribute key '" ++ key ++ "'")
        | (Option.none, _) => .error ("Invalid attribute key '" ++ key ++ "'")
    | Option.none => classifyArgTokens rest attrs (token :: params)

/-- `_parse_arg_tokens(arg_text, base_offset)`. -/
def parse_arg_tokens (argText : String) (baseOffset : Nat) :
    Except String (List (String × String) × List String) :=
  if argText.isEmpty then .ok ([], [])
  else
    match shlexSplit argText with
    | .error e =>
      .error ("Malformed argument quoting near index " ++ toString baseOffset ++ ": " ++ e)
    | .ok tokens => classifyArgTokens tokens [] []

/-- `TagType` from `parser.py`. -/
inductive TagType : Type where
  | SINGLE | DOUBLE | CHEATCODE
  deriving DecidableEq, Repr

/-- `Tag` from `parser.py` (`namespace` is spelled `ns`: it is a Lean
keyword). -/
structure Tag : Type where
  tag_type : TagType
  ns : Option String
  action : String
  params : List String
  attributes : List (String × String)
  content : Option String
  raw : String
  deriving DecidableEq, Repr

/-- The token dictionaries `_read_tag_token` returns. -/
inductive TagToken : Type where
  | close (name : String) (raw : String)
  | openT (name : String) (contentStart : Nat) (rawStart : Nat) (raw : String)
  | single (name : String) (raw : String)
  | cheatcode (ns action : String) (raw : String)
      (attributes : List (String × String)) (params : List String)
  deriving DecidableEq, Repr

/-- `_read_tag_token(text, start)`: `Option.none` models the Python
`(None, start)` return (the position is left for the caller to skip),
`Option.some` a parsed token with the next cursor. -/
def read_tag_token (text : List Char) (start : Nat) :
    Except String (Option (TagToken × Nat)) :=
  match text.drop start with
  | [] => .ok Option.none
  | c :: rest =>
    if c ≠ '[' then .ok Option.none
    else
      match rest with
      | [] => .ok Option.none
      | d :: _ =>
        if d = '/' then
          -- Closing tag.
          match read_identifier text (start + 2) with
          | (Option.none, _) => .error ("Invalid close tag at index " ++ toString start)
          | (Option.some name, cursor) =>
            match text[cursor]? with
            | Option.some ch =>
              if ch = ']' then
                .ok (Option.some (.close name (pySlice text start (cursor + 1)), cursor + 1))
              else
                .error ("Malformed close tag for '" ++ name ++ "' at index " ++ toString start)
            | Option.none =>
              .error ("Malformed close tag for '" ++ name ++ "' at index " ++ toString start)
        else
          -- Open, cheatcode, or malformed.
          match read_identifier text (start + 1) with
          | (Option.none, _) => .error ("Invalid tag name at index " ++ toString start)
          | (Option.some nsName, cursor) =>
            if text[cursor]? = Option.some ':' then
              match read_identifier text (cursor + 1) with
              | (Option.none, _) =>
                .error ("Invalid cheatcode action at index " ++ toString start)
              | (Option.some action, cursor2) =>
                let cursor3 := cursor2 + spaceLen (text.drop cursor2)
                match find_cheatcode_close (text.drop cursor3) cursor3 Option.none false with
                | .error e => .error e
                | .ok closeAt =>
                  let argText := pyStrip (pySlice text cursor3 closeAt)
                  match parse_arg_tokens argText cursor3 with
                  | .error e => .error e
                  | .ok (attrs, params) =>
                    let raw := pySlice text start (closeAt + 2)
                    .ok (Option.some (.cheatcode nsName action raw attrs params, closeAt + 2))
            else
              -- Ignore any whitespace before closing.
              let cursor3 := cursor + spaceLen (text.drop cursor)
              match text[cursor3]? with
              | Option.none => .error ("Unterminated token at index " ++ toString start)
              | Option.some ch =>
                if ch = '/' then
                  if text[cursor3 + 1]? = Option.some ']' then
                    .ok (Option.some (.single nsName (pySlice text start (cursor3 + 2)), cursor3 + 2))
                  else
                    .error ("Malformed self-closing tag '[" ++ nsName ++ "' at index " ++ toString start)
                else if ch ≠ ']' then
                  .error ("Malformed token after '" ++ nsName ++ "' at index " ++ toString start)
                else
                  .ok (Option.some
                    (.openT nsName (cursor3 + 1) start (pySlice text start (cursor3 + 1)), cursor3 + 1))

/-- The scanning loop of `parse_all`: `stack` holds the open container
frames `(name, content_start, raw_start)` innermost first, `tags` the
tags found so far.  The fuel only bounds the loop (every step advances
the cursor, so `text.length + 1` steps always suffice). -/
def parseAllAux (text : List Char) (include_nested : Bool) :
    Nat → Nat → List (String × Nat × Nat) → List Tag → Except String (List Tag)
  | 0, _, _, _ => .error "parser fuel exhausted"
  | fuel + 1, cursor, stack, tags =>
    match text[cursor]? with
    | Option.none =>
      match stack with
      | [] => .ok tags
      | (name, _, _) :: _ => .error ("Unterminated container tag '[" ++ name ++ "]'")
    | Option.some c =>
      if c ≠ '[' then parseAllAux text include_nested fuel (cursor + 1) stack tags
      else
        match read_tag_token text cursor with
        | .error e => .error e
        | .ok Option.none => parseAllAux text include_nested fuel (cursor + 1) stack tags
        | .ok (Option.some (tok, next)) =>
          match tok with
          | .openT name contentStart rawStart _ =>
            parseAllAux text include_nested fuel next ((name, contentStart, rawStart) :: stack) tags
          | .close name _ =>
            match stack with
            | [] =>
              .error ("Unexpected close tag '[/" ++ name ++ "]' at index " ++ toString cursor)
            | (openName, contentStart, rawStart) :: stackRest =>
              if name ≠ openName then
                .error ("Unbalanced container. expected '[/" ++ openName ++
                  "]' before '[/" ++ name ++ "]'")
              else if stackRest.isEmpty then
                let content := pySlice text contentStart cursor
                let raw := pySlice text rawStart next
                parseAllAux text include_nested fuel next stackRest
                  (tags ++ [⟨.DOUBLE, Option.none, openName, [], [], Option.some content, raw⟩])
              else
                parseAllAux text include_nested fuel next stackRest tags
          | .single name raw =>
            if !include_nested && !stack.isEmpty then
              parseAllAux text include_nested fuel next stack tags
            else
              parseAllAux text include_nested fuel next stack
                (tags ++ [⟨.SINGLE, Option.none, name, [], [], Option.none, raw⟩])
          | .cheatcode nsName action raw attrs params =>
            if !include_nested && !stack.isEmpty then
              parseAllAux text include_nested fuel next stack tags
            else
              parseAllAux text include_nested fuel next stack
                (tags ++ [⟨.CHEATCODE, Option.some nsName, action, params, attrs, Option.none, raw⟩])

/-- `parse_all(text, include_nested=False)`. -/
def parse_all (s : String) (include_nested : Bool) : Except String (List Tag) :=
  parseAllAux s.toList include_nested (s.toList.length + 1) 0 [] []

/-- `parse_tag(tag_string)`. -/
def parse_tag (tagString : String) : Except String Tag :=
  let text := pyStrip tagString
  if !(pyStartsWith text "[") || !(pyEndsWith text "]") then
    .error ("Invalid tag format: " ++ tagString)
  else
    match parse_all text true with
    | .error e => .error e
    | .ok [t] => .ok t
    | .ok _ => .error ("Tag must contain exactly one control tag: " ++ tagString)

/-- `is_valid_tag(tag_string)`. -/
def is_valid_tag (tagString : String) : Bool :=
  (parse_tag tagString).isOk

/-- `result.replace(pat, "", 1)`: removes the first occurrence of `pat`
(nothing happens when it does not occur; raw spans are never empty). -/
def removeOnce : List Char → List Char → List Char
  | [], _ => []
  | c :: rest, pat =>
    if pat.isPrefixOf (c :: rest) then (c :: rest).drop pat.length
    else c :: removeOnce rest pat

/-- `parse_all` errors propagate out of `remove_tags`; otherwise every
parsed tag's raw span is removed once, in reverse discovery order, and
(only when at least one tag was found) the result is stripped. -/
def remove_tags (s : String) : Except String String :=
  match parse_all s false with
  | .error e => .error e
  | .ok tags =>
    if tags.isEmpty then .ok s
    else
      let result := tags.reverse.foldl (fun acc tag => removeOnce acc tag.raw.toList) s.toList
      .ok (pyStrip (String.mk result))

/-! ## Identifier validation (`core.py` and `busy_bridge.py`) -/

/-- `core._validate_identifier(value)`. -/
def coreValidateIdentifier (value : String) : Except String Unit :=
  if value.isEmpty then .error "Empty identifier is not allowed"
  else if pyStartsWith value "__" || pyEndsWith value "__" then
    .error ("Invalid identifier '" ++ value ++ "'")
  else if !(isIdentStart (value.toList.headD ' ')) then
    .error ("Invalid identifier '" ++ value ++ "'")
  else if !(value.toList.all (fun c => c.isAlphanum || c = '_' || c = '-')) then
    .error ("Invalid identifier '" ++ value ++ "'")
  else .ok ()

/-- `busy_bridge._validate_identifier(value)` (also allows `.` and `:`,
for hook names). -/
def bridgeValidateIdentifier (value : String) : Except String Unit :=
  if value.isEmpty then .error "Identifier cannot be empty"
  else if pyStartsWith value "__" || pyEndsWith value "__" then
    .error ("Identifier '" ++ value ++ "' contains forbidden underscore sequence")
  else if !(isIdentStart (value.toList.headD ' ')) then
    .error ("Invalid identifier '" ++ value ++ "'")
  else if !(value.toList.all (fun c => c.isAlphanum || c = '_' || c = '-' || c = '.' || c = ':')) then
    .error ("Invalid identifier '" ++ value ++ "'")
  else .ok ()

/-! ## Hook/filter registries

`hooks.Hooks` and `filters.Filters` are the per-context registries;
`busy_bridge.BusyHookRegistry` the bridge one.  Callbacks take the
(frozen) positional arguments and keyword arguments and either return a
value or raise: `Callback := List PyVal → List (String × PyVal) →
Except String PyVal`.  `do_action` is a side-effect loop, so its
embedding returns the trace of per-callback outcomes. -/

/-- A hook/filter callback: frozen positional and keyword arguments in,
a result or an exception out. -/
def Callback : Type := List PyVal → List (String × PyVal) → Except String PyVal

/-- `_freeze` applied to the positional and keyword arguments
(`busy_bridge._freeze_args`; `Hooks.do_action`, `Filters.apply_filters`
do the same inline). -/
def freeze_args (args : List PyVal) (kwargs : List (String × PyVal)) :
    List PyVal × List (String × PyVal) :=
  (args.map freeze, kwargs.map (fun p => (p.1, freeze p.2)))

/-- The `for ... try ... except: continue` loop of `do_action`: every
callback is invoked with the same frozen arguments and its outcome
(normal or exceptional) recorded; an exception never stops the loop. -/
def doActionTrace (callbacks : List Callback) (args : List PyVal)
    (kwargs : List (String × PyVal)) : List (Except String PyVal) :=
  let (safeArgs, safeKwargs) := freeze_args args kwargs
  callbacks.map (fun cb => cb safeArgs safeKwargs)

/-- The `for ... try ... except: continue` loop of a filter chain:
threads the current value through each callback; a raising callback
leaves the previous value in place and the chain continues. -/
def filterChain (callbacks : List Callback) (value : PyVal) (safeArgs : List PyVal)
    (safeKwargs : List (String × PyVal)) : PyVal :=
  callbacks.foldl
    (fun current cb =>
      match cb (current :: safeArgs) safeKwargs with
      | .ok next => next
      | .error _ => current)
    value

/-- `Filters.apply_filters(tag, value, *args, **kwargs)` from
`filters.py`: with no callbacks the value is returned untouched;
otherwise the extra arguments and the initial value are frozen and the
chain is run. -/
def apply_filters (callbacks : List Callback) (value : PyVal) (args : List PyVal)
    (kwargs : List (String × PyVal)) : PyVal :=
  if callbacks.isEmpty then value
  else
    let (safeArgs, safeKwargs) := freeze_args args kwargs
    filterChain callbacks (freeze value) safeArgs safeKwargs

/-- `BusyHookRegistry.apply(hook_name, value, *args, **kwargs)`:
identical chain but the initial value itself is not frozen. -/
def busyApply (callbacks : List Callback) (value : PyVal) (args : List PyVal)
    (kwargs : List (String × PyVal)) : PyVal :=
  if callbacks.isEmpty then value
  else
    let (safeArgs, safeKwargs) := freeze_args args kwargs
    filterChain callbacks value safeArgs safeKwargs

/-- `_CRITICAL_HOOKS` from `busy_bridge.py`. -/
def criticalHooks : List String :=
  ["busy38.pre_cheatcode_execute", "busy38.post_cheatcode_execute"]

/-- `_ensure_removal_allowed(hook_name, allow_critical, removal_token)`.
`cfgToken` is the module constant `_HOOK_REMOVAL_TOKEN` (the stripped
`CAPTAINHOOK_HOOK_REMOVAL_TOKEN` environment value, possibly empty);
`secrets.compare_digest` is functionally string equality. -/
def ensure_removal_allowed (cfgToken : String) (hookName : String)
    (allowCritical : Bool) (removalToken : Option String) : Except String Unit :=
  if !(criticalHooks.contains hookName) then .ok ()
  else if !allowCritical then
    .error ("critical hook '" ++ hookName ++ "' cannot be removed without allow_critical=True")
  else if cfgToken.isEmpty then
    .error ("critical hook '" ++ hookName ++
      "' cannot be removed without a configured CAPTAINHOOK_HOOK_REMOVAL_TOKEN")
  else
    match removalToken with
    | Option.none =>
      .error ("critical hook '" ++ hookName ++ "' requires matching CAPTAINHOOK_HOOK_REMOVAL_TOKEN")
    | Option.some tok =>
      if tok.isEmpty || tok ≠ cfgToken then
        .error ("critical hook '" ++ hookName ++ "' requires matching CAPTAINHOOK_HOOK_REMOVAL_TOKEN")
      else .ok ()

/-- `_HookEntry` from `busy_bridge.py`; the callback type is a
parameter so removal by callback identity (`is`) can be stated where
equality is decidable. -/
structure HookEntry (κ : Type) : Type where
  callback : κ
  priority : Int
  entry_id : String
  order : Nat
  deriving Repr

/-- `BusyHookRegistry` state: the two bucket maps and the two id
counters (the lock is re-entrant and every public operation holds it
only around pure state manipulation, so the sequential model is
faithful). -/
structure BusyHookRegistry (κ : Type) : Type where
  actions : List (String × List (HookEntry κ))
  filters : List (String × List (HookEntry κ))
  next_action_id : Nat
  next_filter_id : Nat

/-- The empty registry. -/
def BusyHookRegistry.empty (κ : Type) : BusyHookRegistry κ :=
  ⟨[], [], 0, 0⟩

/-- `(priority, order)` used as the sort key of a bucket. -/
def entryKeyLe {κ : Type} (a b : HookEntry κ) : Bool :=
  a.priority < b.priority || (a.priority = b.priority && a.order ≤ b.order)

/-- `BusyHookRegistry._register`: appends the entry to the hook's bucket
with the next id and re-sorts by `(priority, order)` (Python's stable
sort; the keys are distinct since `order` is the insertion index). -/
def busyRegister {κ : Type} (buckets : List (String × List (HookEntry κ)))
    (hookName : String) (callback : κ) (priority : Int) (counter : Nat) :
    String × List (String × List (HookEntry κ)) :=
  let bucket := (dictGet buckets hookName).getD []
  let entryId := "hook-" ++ toString counter
  let entry : HookEntry κ := ⟨callback, priority, entryId, bucket.length⟩
  let newBucket := (bucket ++ [entry]).mergeSort entryKeyLe
  (entryId, dictSet buckets hookName newBucket)

/-- `BusyHookRegistry.add_action`. -/
def busyAddAction {κ : Type} (reg : BusyHookRegistry κ) (hookName : String)
    (callback : κ) (priority : Int) : Except String (String × BusyHookRegistry κ) :=
  match bridgeValidateIdentifier hookName with
  | .error e => .error e
  | .ok _ =>
    let (entryId, buckets) := busyRegister reg.actions hookName callback priority reg.next_action_id
    .ok (entryId, { reg with actions := buckets, next_action_id := reg.next_action_id + 1 })

/-- `BusyHookRegistry.add_filter`. -/
def busyAddFilter {κ : Type} (reg : BusyHookRegistry κ) (hookName : String)
    (callback : κ) (priority : Int) : Except String (String × BusyHookRegistry κ) :=
  match bridgeValidateIdentifier hookName with
  | .error e => .error e
  | .ok _ =>
    let (entryId, buckets) := busyRegister reg.filters hookName callback priority reg.next_filter_id
    .ok (entryId, { reg with filters := buckets, next_filter_id := reg.next_filter_id + 1 })

/-- The `entry_id: str | Callable` argument of the removal calls. -/
inductive RemovalKey (κ : Type) : Type where
  | byId (id : String)
  | byCallback (cb : κ)

/-- `BusyHookRegistry._remove_one` on one bucket map: filters the bucket
by id or callback identity, reports whether something was removed, and
drops the bucket when it becomes empty. -/
def busyRemoveOne {κ : Type} [DecidableEq κ] (cfgToken : String)
    (buckets : List (String × List (HookEntry κ))) (hookName : String)
    (key : RemovalKey κ) (allowCritical : Bool) (removalToken : Option String) :
    Except String (Bool × List (String × List (HookEntry κ))) :=
  match ensure_removal_allowed cfgToken hookName allowCritical removalToken with
  | .error e => .error e
  | .ok _ =>
    match dictGet buckets hookName with
    | Option.none => .ok (false, buckets)
    | Option.some entries =>
      if entries.isEmpty then .ok (false, buckets)
      else
        let kept := match key with
          | .byCallback cb => entries.filter (fun e => e.callback ≠ cb)
          | .byId id => entries.filter (fun e => e.entry_id ≠ id)
        let removed := kept.length ≠ entries.length
        if kept.isEmpty then
          .ok (removed, buckets.filter (fun p => p.1 ≠ hookName))
        else
          .ok (removed, dictSet buckets hookName kept)

/-- `BusyHookRegistry.remove_action`. -/
def busyRemoveAction {κ : Type} [DecidableEq κ] (cfgToken : String)
    (reg : BusyHookRegistry κ) (hookName : String) (key : RemovalKey κ)
    (allowCritical : Bool) (removalToken : Option String) :
    Except String (Bool × BusyHookRegistry κ) :=
  match busyRemoveOne cfgToken reg.actions hookName key allowCritical removalToken with
  | .error e => .error e
  | .ok (removed, buckets) => .ok (removed, { reg with actions := buckets })

/-- `BusyHookRegistry.remove_filter`. -/
def busyRemoveFilter {κ : Type} [DecidableEq κ] (cfgToken : String)
    (reg : BusyHookRegistry κ) (hookName : String) (key : RemovalKey κ)
    (allowCritical : Bool) (removalToken : Option String) :
    Except String (Bool × BusyHookRegistry κ) :=
  match busyRemoveOne cfgToken reg.filters hookName key allowCritical removalToken with
  | .error e => .error e
  | .ok (removed, buckets) => .ok (removed, { reg with filters := buckets })

/-- `BusyHookRegistry.remove_all_actions`. -/
def busyRemoveAllActions {κ : Type} (cfgToken : String) (reg : BusyHookRegistry κ)
    (hookName : String) (allowCritical : Bool) (removalToken : Option String) :
    Except String (Bool × BusyHookRegistry κ) :=
  match ensure_removal_allowed cfgToken hookName allowCritical removalToken with
  | .error e => .error e
  | .ok _ =>
    .ok (dictHas reg.actions hookName,
      { reg with actions := reg.actions.filter (fun p => p.1 ≠ hookName) })

/-- `BusyHookRegistry.remove_all_filters`. -/
def busyRemoveAllFilters {κ : Type} (cfgToken : String) (reg : BusyHookRegistry κ)
    (hookName : String) (allowCritical : Bool) (removalToken : Option String) :
    Except String (Bool × BusyHookRegistry κ) :=
  match ensure_removal_allowed cfgToken hookName allowCritical removalToken with
  | .error e => .error e
  | .ok _ =>
    .ok (dictHas reg.filters hookName,
      { reg with filters := reg.filters.filter (fun p => p.1 ≠ hookName) })

/-- `BusyHookRegistry.do_action`: trace of the snapshot's callbacks,
`callbacks` resolved through an interpretation so the registry state can
use any callback representation. -/
def busyDoActionTrace {κ : Type} (interp : κ → Callback) (reg : BusyHookRegistry κ)
    (hookName : String) (args : List PyVal) (kwargs : List (String × PyVal)) :
    List (Except String PyVal) :=
  let callbacks := ((dictGet reg.actions hookName).getD []).map (fun e => interp e.callback)
  doActionTrace callbacks args kwargs

/-- `BusyHookRegistry.apply` resolved against the registry state. -/
def busyApplyOn {κ : Type} (interp : κ → Callback) (reg : BusyHookRegistry κ)
    (hookName : String) (value : PyVal) (args : List PyVal)
    (kwargs : List (String × PyVal)) : PyVal :=
  busyApply (((dictGet reg.filters hookName).getD []).map (fun e => interp e.callback))
    value args kwargs

/-! ## Namespace registry (`busy_bridge.NamespaceRegistry`)

A namespace capability handler exposes `execute(action, **attributes)`;
it is modelled as a function (the model cannot hold objects without an
`execute` method, so the `hasattr` guards are vacuous here). -/

/-- A namespace capability handler: `execute(action, **kwargs)`. -/
def NsHandler : Type := String → List (String × PyVal) → Except String PyVal

/-- `NamespaceRegistry` state: handler map and sanitized metadata map
(the re-entrant lock guards pure state, so the sequential model is
faithful). -/
structure NamespaceRegistry : Type where
  handlers : List (String × NsHandler)
  metadata : List (String × List (String × PyVal))

/-- The empty registry. -/
def NamespaceRegistry.empty : NamespaceRegistry := ⟨[], []⟩

/-- `NamespaceRegistry._validate_allowed_action_list(namespace, values)`:
`None` means no restriction (empty list), a tuple is converted to a
list, any other non-list raises `TypeError`, every element must be a
string. -/
def validate_allowed_action_list (nsLabel : String) (values : Option PyVal) :
    Except String (List String) :=
  match values with
  | Option.none => .ok []
  | Option.some PyVal.none => .ok []
  | Option.some (.plist xs _) =>
    let rec collect : List PyVal → Except String (List String)
      | [] => .ok []
      | .str s :: rest =>
        match collect rest with
        | .ok ss => .ok (s :: ss)
        | .error e => .error e
      | _ :: _ =>
        .error ("metadata['allowed_actions'] for namespace '" ++ nsLabel ++
          "' must contain strings")
    collect xs
  | Option.some _ =>
    .error ("metadata['allowed_actions'] for namespace '" ++ nsLabel ++
      "' must be a list of action names")

/-- `NamespaceRegistry.register(namespace, handler, metadata)`. -/
def registryRegister (reg : NamespaceRegistry) (ns : String) (handler : NsHandler)
    (metadata : Option (List (String × PyVal))) : Except String NamespaceRegistry :=
  match bridgeValidateIdentifier ns with
  | .error e => .error e
  | .ok _ =>
    if dictHas reg.handlers ns then .error ("Namespace '" ++ ns ++ "' is already registered")
    else .ok ⟨reg.handlers ++ [(ns, handler)], reg.metadata ++ [(ns, metadata.getD [])]⟩

/-- `NamespaceRegistry.unregister(namespace)`. -/
def registryUnregister (reg : NamespaceRegistry) (ns : String) :
    Except String NamespaceRegistry :=
  match bridgeValidateIdentifier ns with
  | .error e => .error e
  | .ok _ =>
    if !(dictHas reg.handlers ns) then .error ("Namespace '" ++ ns ++ "' is not registered")
    else .ok ⟨reg.handlers.filter (fun p => p.1 ≠ ns), reg.metadata.filter (fun p => p.1 ≠ ns)⟩

/-- `NamespaceRegistry.get(namespace)` (validates the identifier, then
looks the handler up). -/
def registryGet (reg : NamespaceRegistry) (ns : String) :
    Except String (Option NsHandler) :=
  match bridgeValidateIdentifier ns with
  | .error e => .error e
  | .ok _ => .ok (dictGet reg.handlers ns)

/-- `NamespaceRegistry.get_metadata(namespace)`: a copy of the stored
metadata dict, `{}` when absent. -/
def registryGetMetadata (reg : NamespaceRegistry) (ns : String) :
    Except String (List (String × PyVal)) :=
  match bridgeValidateIdentifier ns with
  | .error e => .error e
  | .ok _ => .ok ((dictGet reg.metadata ns).getD [])

/-- `NamespaceRegistry._allowed_actions(namespace_metadata)`: `None`
(no restriction) for empty metadata, for an absent `allowed_actions`
key, and — after validation — for an *empty* allow-list. -/
def allowed_actions (namespaceMetadata : List (String × PyVal)) :
    Except String (Option (List String)) :=
  if namespaceMetadata.isEmpty then .ok Option.none
  else
    match validate_allowed_action_list "namespace" (dictGet namespaceMetadata "allowed_actions") with
    | .error e => .error e
    | .ok allowed => .ok (if allowed.isEmpty then Option.none else Option.some allowed)

/-- `NamespaceRegistry._validate_namespace_action(namespace, action)`. -/
def validate_namespace_action (reg : NamespaceRegistry) (ns action : String) :
    Except String Unit :=
  match bridgeValidateIdentifier action with
  | .error e => .error e
  | .ok _ =>
    match registryGetMetadata reg ns with
    | .error e => .error e
    | .ok metadata =>
      match allowed_actions metadata with
      | .error e => .error e
      | .ok (Option.some allowed) =>
        if !(allowed.contains action) then
          .error ("Action '" ++ action ++ "' is not allowed for namespace '" ++ ns ++ "'")
        else .ok ()
      | .ok Option.none => .ok ()

/-- The attribute-sanitizing loop of `NamespaceRegistry.execute`: every
key is validated, every value frozen, in insertion order. -/
def sanitizeAttrs : List (String × PyVal) → Except String (List (String × PyVal))
  | [] => .ok []
  | (k, v) :: rest =>
    match bridgeValidateIdentifier k with
    | .error e => .error e
    | .ok _ =>
      match sanitizeAttrs rest with
      | .error e => .error e
      | .ok sanitized => .ok ((k, freeze v) :: sanitized)

/-- `NamespaceRegistry.execute(namespace, action, attributes)`. -/
def registryExecute (reg : NamespaceRegistry) (ns action : String)
    (attributes : Option (List (String × PyVal))) : Except String PyVal :=
  match bridgeValidateIdentifier ns with
  | .error e => .error e
  | .ok _ =>
    match validate_namespace_action reg ns action with
    | .error e => .error e
    | .ok _ =>
      match registryGet reg ns with
      | .error e => .error e
      | .ok Option.none => .error ("Namespace '" ++ ns ++ "' is not registered")
      | .ok (Option.some handler) =>
        match sanitizeAttrs (attributes.getD []) with
        | .error e => .error e
        | .ok safeAttrs => handler action safeAttrs

/-- `busy_bridge._as_metadata_dict(metadata)` restricted to the value
model: a dict gives a copy of its entries, anything else `{}` (the
`__dict__`/`as_dict` duck-typing escape hatches have no counterpart
among `PyVal` values). -/
def as_metadata_dict : PyVal → List (String × PyVal)
  | .pdict es _ => es
  | _ => []

/-- The container-name loop of `busy_bridge._extract_action_metadata`:
the first of `actions`/`action_metadata`/`action_metadata_by_name` whose
dict maps `action` (or its lower-cased form) to a dict wins. -/
def extractActionGo (metadata : List (String × PyVal)) (action : String) :
    List String → List (String × PyVal)
  | [] => []
  | cname :: rest =>
    match dictGet metadata cname with
    | Option.some (.pdict amap _) =>
      match dictGet amap action with
      | Option.some (.pdict es _) => es
      | _ =>
        match dictGet amap (pyToLower action) with
        | Option.some (.pdict es _) => es
        | _ => extractActionGo metadata action rest
    | _ => extractActionGo metadata action rest

/-- `busy_bridge._extract_action_metadata(metadata, action)`. -/
def extract_action_metadata (metadata : List (String × PyVal)) (action : String) :
    List (String × PyVal) :=
  if metadata.isEmpty then []
  else extractActionGo metadata action ["actions", "action_metadata", "action_metadata_by_name"]

/-- `busy_bridge.validate_action_metadata(namespace, action, metadata)`.
`bridge` is the process-wide `cheatcode_registry` consulted when the
passed metadata is `None` or an empty (falsy) dict.  An
`allowed_actions` key bound to anything but `None` triggers the
allow-list check — including an *empty* list, which then rejects every
action. -/
def validate_action_metadata (bridge : NamespaceRegistry) (ns action : String)
    (metadata : Option (List (String × PyVal))) : Except String Unit :=
  match bridgeValidateIdentifier ns with
  | .error e => .error e
  | .ok _ =>
    match bridgeValidateIdentifier action with
    | .error e => .error e
    | .ok _ =>
      match
        (match metadata with
         | Option.some m => if m.isEmpty then registryGetMetadata bridge ns else .ok m
         | Option.none => registryGetMetadata bridge ns) with
      | .error e => .error e
      | .ok candidate =>
        match
          (match dictGet candidate "allowed_actions" with
           | Option.none => Except.ok ()
           | Option.some PyVal.none => Except.ok ()
           | Option.some v =>
             match validate_allowed_action_list ns (Option.some v) with
             | .error e => Except.error e
             | .ok allowed =>
               if !(allowed.contains action) then
                 Except.error ("Action '" ++ action ++ "' is not allowed for namespace '" ++ ns ++ "'")
               else Except.ok ()) with
        | .error e => .error e
        | .ok _ =>
          if (dictGet candidate "forbid_dangermeta").elim false PyVal.truthy then
            let localMeta := extract_action_metadata candidate action
            if (dictGet localMeta "forbid").elim false PyVal.truthy then
              .error ("Action '" ++ action ++ "' is forbidden in namespace '" ++ ns ++ "'")
            else .ok ()
          else .ok ()

/-! ## Execution context (`core.py`)

Hook emission around dispatch (`Hooks.do_action`, and the bridge
`emit` calls, which the source wraps in `try/except: pass`) is
side-effect-only and can never change a result, so it is elided here.
Actual handler invocations are recorded in a trace so that "the handler
was never invoked" is a statable property. -/

/-- A handler registered under an action pattern: called with the tag's
positional params and the merged keyword arguments. -/
def LocalHandler : Type := List String → List (String × PyVal) → Except String PyVal

/-- A container-tag handler: called with `(tag.content, **kwargs)`. -/
def ContainerHandler : Type := Option String → List (String × PyVal) → Except String PyVal

/-- `core.Context` state.  `resultFilters` are the callbacks its
`filters` registry holds under the `"result"` tag. -/
structure Context : Type where
  handlers : List (String × LocalHandler)
  nsHandlers : List (String × NsHandler)
  nsMetadata : List (String × List (String × PyVal))
  containerHandlers : List (String × ContainerHandler)
  applyFiltersFlag : Bool
  resultFilters : List Callback

/-- A freshly constructed `Context(apply_filters=False)`. -/
def Context.empty : Context := ⟨[], [], [], [], false, []⟩

/-- One recorded handler invocation. -/
inductive HandlerCall : Type where
  | localH (pattern : String) (args : List String) (kwargs : List (String × PyVal))
  | nsExec (ns action : String) (kwargs : List (String × PyVal))
  | containerH (name : String) (content : Option String) (kwargs : List (String × PyVal))
  | simpleH (action : String) (kwargs : List (String × PyVal))

/-- Result of a dispatch together with the handler invocations it
performed. -/
def ExecOut : Type := Except String PyVal × List HandlerCall

/-- `sorted(overlap)` over strings. -/
def sortStrings (keys : List String) : List String :=
  keys.mergeSort (fun a b => !(decide (b < a)))

/-- The overlap `set(tag_attrs) & set(runtime_kwargs)` (as the attribute
keys that also occur among the runtime keys). -/
def overlapKeys (tagAttrs : List (String × String)) (kwargs : List (String × PyVal)) :
    List String :=
  (tagAttrs.map Prod.fst).filter (fun k => dictHas kwargs k)

/-- The parameter-smuggling error text of `_merge_call_kwargs`. -/
def smugglingMsg (keys : List String) : String :=
  "Tag data overlaps runtime keys: " ++ String.intercalate ", " (sortStrings keys)

/-- `core._merge_call_kwargs(tag_attrs, runtime_kwargs)`: rejects any
attribute/kwarg key collision, otherwise merges (attributes win) and
returns the frozen copy. -/
def merge_call_kwargs (tagAttrs : List (String × String))
    (runtimeKwargs : List (String × PyVal)) : Except String (List (String × PyVal)) :=
  let overlap := overlapKeys tagAttrs runtimeKwargs
  if !overlap.isEmpty then .error (smugglingMsg overlap)
  else
    .ok (freeze_kwargs
      (dictUpdate runtimeKwargs (tagAttrs.map (fun p => (p.1, PyVal.str p.2)))))

/-- The attribute-key loop of `core._validate_tag_values`. -/
def validateAttrKeys : List (String × String) → Except String Unit
  | [] => .ok ()
  | (k, _) :: rest =>
    match coreValidateIdentifier k with
    | .error e => .error e
    | .ok _ => validateAttrKeys rest

/-- `core._validate_tag_values(tag)`. -/
def validate_tag_values (tag : Tag) : Except String Unit :=
  match coreValidateIdentifier tag.action with
  | .error e => .error e
  | .ok _ =>
    match
      (match tag.ns with
       | Option.some nsName => coreValidateIdentifier nsName
       | Option.none => Except.ok ()) with
    | .error e => .error e
    | .ok _ => validateAttrKeys tag.attributes

/-- `str(tag.namespace)` (`"None"` when absent; a `CHEATCODE` tag always
carries one). -/
def nsString (tag : Tag) : String := tag.ns.getD "None"

/-- `Context._resolve_namespace_handler(namespace)`: the local handler
wins; otherwise the process-wide bridge registry is consulted, any
exception there (for instance identifier validation inside
`get_namespace`) yielding `None`. -/
def resolveNamespaceHandler (ctx : Context) (bridge : NamespaceRegistry) (ns : String) :
    Option NsHandler :=
  match dictGet ctx.nsHandlers ns with
  | Option.some h => Option.some h
  | Option.none =>
    match registryGet bridge ns with
    | .ok h => h
    | .error _ => Option.none

/-- `Context._resolve_namespace_metadata(namespace)`: the local copy
updated with the bridge metadata (bridge values win); an exception in
the bridge lookup leaves the local copy. -/
def resolveNamespaceMetadata (ctx : Context) (bridge : NamespaceRegistry) (ns : String) :
    List (String × PyVal) :=
  let localPayload := (dictGet ctx.nsMetadata ns).getD []
  match registryGetMetadata bridge ns with
  | .ok bridgeMetadata => dictUpdate localPayload bridgeMetadata
  | .error _ => localPayload

/-- `Context._execute_cheatcode(tag, **kwargs)` (the pre/post hook
emissions are effect-only and elided; the `hasattr(handler, "execute")`
guard is vacuously satisfied by the handler model). -/
def execute_cheatcode (ctx : Context) (bridge : NamespaceRegistry) (tag : Tag)
    (kwargs : List (String × PyVal)) : ExecOut :=
  let key := nsString tag ++ ":" ++ tag.action
  let safeKwargs := freeze_kwargs kwargs
  match dictGet ctx.handlers key with
  | Option.none =>
    let nsName := nsString tag
    match resolveNamespaceHandler ctx bridge nsName with
    | Option.none => (.error ("No handler for cheatcode '" ++ key ++ "'"), [])
    | Option.some nsHandler =>
      match validate_action_metadata bridge nsName tag.action
          (Option.some (resolveNamespaceMetadata ctx bridge nsName)) with
      | .error e => (.error e, [])
      | .ok _ =>
        match merge_call_kwargs tag.attributes safeKwargs with
        | .error e => (.error e, [])
        | .ok merged =>
          (nsHandler tag.action merged, [.nsExec nsName tag.action merged])
  | Option.some localHandler =>
    match merge_call_kwargs tag.attributes safeKwargs with
    | .error e => (.error e, [])
    | .ok merged =>
      (localHandler tag.params merged, [.localH key tag.params merged])

/-- `Context._execute_container(tag, **kwargs)`. -/
def execute_container (ctx : Context) (tag : Tag) (kwargs : List (String × PyVal)) :
    ExecOut :=
  match dictGet ctx.containerHandlers tag.action with
  | Option.none => (.error ("No container handler for '" ++ tag.action ++ "'"), [])
  | Option.some handler =>
    (handler tag.content (freeze_kwargs kwargs),
     [.containerH tag.action tag.content (freeze_kwargs kwargs)])

/-- `Context._execute_simple(tag, **kwargs)`. -/
def execute_simple (ctx : Context) (tag : Tag) (kwargs : List (String × PyVal)) :
    ExecOut :=
  match dictGet ctx.handlers tag.action with
  | Option.none => (.error ("No handler for tag '" ++ tag.action ++ "'"), [])
  | Option.some handler =>
    (handler [] (freeze_kwargs kwargs), [.simpleH tag.action (freeze_kwargs kwargs)])

/-- The `Tag` object passed positionally into result-filter callbacks,
abstracted by its raw text (`_freeze` leaves a dataclass unchanged
either way). -/
def tagArg (tag : Tag) : PyVal := PyVal.str tag.raw

/-- `Context.execute_tag(tag, **kwargs)`: validates the tag's
identifiers, dispatches on the tag type, then (when the context was
built with `apply_filters=True`) runs the `"result"` filter chain on
the result.  The `before_execute`/`after_execute` hook emissions are
effect-only and elided. -/
def execute_tag (ctx : Context) (bridge : NamespaceRegistry) (tag : Tag)
    (kwargs : List (String × PyVal)) : ExecOut :=
  match validate_tag_values tag with
  | .error e => (.error e, [])
  | .ok _ =>
    let out :=
      match tag.tag_type with
      | .DOUBLE => execute_container ctx tag kwargs
      | .CHEATCODE => execute_cheatcode ctx bridge tag kwargs
      | .SINGLE => execute_simple ctx tag kwargs
    match out with
    | (.error e, calls) => (.error e, calls)
    | (.ok v, calls) =>
      if ctx.applyFiltersFlag then
        (.ok (apply_filters ctx.resultFilters v [tagArg tag] (freeze_kwargs kwargs)), calls)
      else (.ok v, calls)

/-- One result slot of `Context.execute_text`: the tag's result, or the
`{"error": str(exc), "tag": tag.raw}` record when its execution
raised. -/
def tagSlot (ctx : Context) (bridge : NamespaceRegistry) (tag : Tag)
    (kwargs : List (String × PyVal)) : PyVal :=
  match (execute_tag ctx bridge tag kwargs).1 with
  | .ok v => v
  | .error e => .pdict [("error", .str e), ("tag", .str tag.raw)] true

/-- `Context.execute_text(text, **kwargs)`: parses all top-level tags
and executes each one independently in source order (the loop carries no
state across iterations, so it is a map over the parsed tags). -/
def execute_text (ctx : Context) (bridge : NamespaceRegistry) (text : String)
    (kwargs : List (String × PyVal)) : Except String (List PyVal) :=
  match parse_all text false with
  | .error e => .error e
  | .ok tags => .ok (tags.map (fun tag => tagSlot ctx bridge tag kwargs))

/-- `Context.execute(tag_string, **kwargs)`. -/
def contextExecute (ctx : Context) (bridge : NamespaceRegistry) (tagString : String)
    (kwargs : List (String × PyVal)) : ExecOut :=
  match parse_tag tagString with
  | .error e => (.error e, [])
  | .ok tag => execute_tag ctx bridge tag kwargs

/-- `Context.execute_async(tag_string, **kwargs)`: same dispatch without
the identifier validation step (and with its own lookup-error wording);
the single `await` suspension point changes no value and is elided. -/
def contextExecuteAsync (ctx : Context) (bridge : NamespaceRegistry) (tagString : String)
    (kwargs : List (String × PyVal)) : ExecOut :=
  match parse_tag tagString with
  | .error e => (.error e, [])
  | .ok tag =>
    let safeKwargs := freeze_kwargs kwargs
    let out :=
      match tag.tag_type with
      | .DOUBLE =>
        match dictGet ctx.containerHandlers tag.action with
        | Option.none => ((.error ("No handler for '" ++ tag.action ++ "'") : Except String PyVal), ([] : List HandlerCall))
        | Option.some handler =>
          (handler tag.content safeKwargs, [.containerH tag.action tag.content safeKwargs])
      | .CHEATCODE =>
        let key := nsString tag ++ ":" ++ tag.action
        match dictGet ctx.handlers key with
        | Option.none =>
          let nsName := nsString tag
          match resolveNamespaceHandler ctx bridge nsName with
          | Option.none => (.error ("No handler for '" ++ key ++ "'"), [])
          | Option.some nsHandler =>
            match validate_action_metadata bridge nsName tag.action
                (Option.some (resolveNamespaceMetadata ctx bridge nsName)) with
            | .error e => (.error e, [])
            | .ok _ =>
              match merge_call_kwargs tag.attributes safeKwargs with
              | .error e => (.error e, [])
              | .ok merged =>
                (nsHandler tag.action merged, [.nsExec nsName tag.action merged])
        | Option.some handler =>
          match merge_call_kwargs tag.attributes safeKwargs with
          | .error e => (.error e, [])
          | .ok merged =>
            (handler tag.params merged, [.localH key tag.params merged])
      | .SINGLE =>
        match dictGet ctx.handlers tag.action with
        | Option.none => (.error ("No handler for '" ++ tag.action ++ "'"), [])
        | Option.some handler =>
          (handler [] safeKwargs, [.simpleH tag.action safeKwargs])
    match out with
    | (.error e, calls) => (.error e, calls)
    | (.ok v, calls) =>
      if ctx.applyFiltersFlag then
        (.ok (apply_filters ctx.resultFilters v [tagArg tag] safeKwargs), calls)
      else (.ok v, calls)

/-! ## Claim theorems -/

/-- C4 (counterexample): the freeze applied at the dispatch boundaries
is *shallow* — freezing a list holding a mutable dict yields a tuple
whose member is still the original mutable dict, so a callback can
mutate that nested caller-owned value; and `core._freeze_kwargs` hands
the handler a plain mutable dict, not a read-only mapping.  This
refutes "immutable view ... including values nested inside
containers". -/
theorem c4_shallow_freeze_counterexample :
    deepImmutable (freeze (PyVal.plist [PyVal.pdict [] true] true)) = false ∧
    topImmutable (freezeKwargsVal [("k", PyVal.str "v")]) = false := by
  exact ⟨rfl, rfl⟩

/-- C4 (amended): the boundary freeze converts only the *top-level*
container to its read-only form — dict to read-only mapping, list and
tuple to tuple, set to frozenset, scalars unchanged — passing the
members through unchanged (so nested mutable containers stay mutable
for the callback), and `core._freeze_kwargs` produces a fresh plain
(top-level mutable) dict holding the same entries. -/
theorem c4_freeze_shallow_conversion :
    (∀ v, topImmutable (freeze v) = true) ∧
    (∀ es m, freeze (PyVal.pdict es m) = PyVal.pdict es false) ∧
    (∀ xs m, freeze (PyVal.plist xs m) = PyVal.plist xs false) ∧
    (∀ xs m, freeze (PyVal.pset xs m) = PyVal.pset xs false) ∧
    (∀ s, freeze (PyVal.str s) = PyVal.str s) ∧
    (∀ n, freeze (PyVal.int n) = PyVal.int n) ∧
    (∀ b, freeze (PyVal.bool b) = PyVal.bool b) ∧
    freeze PyVal.none = PyVal.none ∧
    (∀ entries, freezeKwargsVal entries = PyVal.pdict entries true) := by
  refine ⟨fun v => ?_, fun es m => ?_, fun xs m => ?_, fun xs m => ?_,
    fun s => rfl, fun n => rfl, fun b => rfl, rfl, fun entries => rfl⟩
  · cases v with
    | str s => rfl
    | int n => rfl
    | bool b => rfl
    | none => rfl
    | pdict es m => cases m <;> rfl
    | plist xs m => cases m <;> rfl
    | pset xs m => cases m <;> rfl
  · cases m <;> rfl
  · cases m <;> rfl
  · cases m <;> rfl

/-- C5: `[a]x[/a]` parses to exactly one Container (`DOUBLE`) tag with
content `"x"`; a close-name mismatch (`[a]x[/b]`) is a ParseError; a
missing close (`[a]x`, container stack non-empty at end of input) is a
ParseError whose message names the unterminated tag `a`. -/
theorem c5_container_balance :
    parse_all "[a]x[/a]" false =
      Except.ok [⟨TagType.DOUBLE, Option.none, "a", [], [], Option.some "x", "[a]x[/a]"⟩] ∧
    parse_all "[a]x[/b]" false =
      Except.error "Unbalanced container. expected '[/a]' before '[/b]'" ∧
    parse_all "[a]x" false = Except.error "Unterminated container tag '[a]'" := by
  exact ⟨rfl, rfl, rfl⟩

/-- C6 (counterexample): a `[` that is the *last* character of the input
matches none of the valid token forms, yet `parse_all` silently skips it
and succeeds with no tags (`_read_tag_token` returns `(None, start)`
when `start + 1 >= len(text)`), contradicting "no `[` that fails to
match one of those forms is silently skipped". -/
theorem c6_trailing_bracket_counterexample :
    parse_all "[" false = Except.ok [] ∧
    read_tag_token "[".toList 0 = Except.ok Option.none := by
  exact ⟨rfl, rfl⟩

/-- C7 (counterexample): on text with zero parseable tags `remove_tags`
returns the input *unchanged* — `" x "` comes back with its surrounding
whitespace, not the trimmed `"x"` the claim promises. -/
theorem c7_no_trim_counterexample :
    remove_tags " x " = Except.ok " x " ∧ pyStrip " x " = "x" ∧ (" x " : String) ≠ "x" := by
  exact ⟨rfl, rfl, by decide⟩

/-- C7 (amended): when `parse_all` finds zero tags, `remove_tags`
returns the input unchanged (hence it is idempotent on such text, though
it does not trim); when tags are present, each parsed tag's raw span is
removed exactly once, in reverse discovery order, and the result is
stripped. -/
theorem c7_remove_tags_behavior (s : String) (tags : List Tag)
    (h : parse_all s false = Except.ok tags) :
    (tags = [] → remove_tags s = Except.ok s) ∧
    (tags ≠ [] → remove_tags s =
      Except.ok (pyStrip (String.mk (tags.reverse.foldl
        (fun acc tag => removeOnce acc tag.raw.toList) s.toList)))) := by
  constructor
  · intro ht
    subst ht
    simp [remove_tags, h]
  · intro ht
    have hne : tags.isEmpty = false := by
      cases tags with
      | nil => exact absurd rfl ht
      | cons a l => rfl
    simp [remove_tags, h, hne]

/-- C7 (witness): `"hello"` parses to zero tags and `remove_tags`
returns it unchanged. -/
theorem c7_remove_tags_witness : remove_tags "hello" = Except.ok "hello" :=
  (c7_remove_tags_behavior "hello" [] rfl).1 rfl

/-- C9 (counterexample): the *parser* never enforces the
double-underscore sentinel rule — `[__a:b /]` parses successfully with
namespace `__a`, although that identifier violates the rule (as the
execution-time validator shows); the claim's "any violation makes the
whole parse call fail" is false. -/
theorem c9_parse_accepts_dunder_counterexample :
    parse_all "[__a:b /]" false =
      Except.ok [⟨TagType.CHEATCODE, Option.some "__a", "b", [], [],
        Option.none, "[__a:b /]"⟩] ∧
    coreValidateIdentifier "__a" = Except.error "Invalid identifier '__a'" := by
  exact ⟨rfl, rfl⟩

/-- C6 (amended): a `[` that is the final character of the input is
silently skipped; every *other* `[` (one with at least one character
after it) that begins an invalid token makes `_read_tag_token` raise a
ParseError — it never returns the silent-skip value `(None, start)`, so
`parse_all` propagates the error instead of skipping. -/
theorem c6_no_silent_skip (text : List Char) (start : Nat)
    (hc : text[start]? = Option.some '[') (hlen : start + 1 < text.length) :
    read_tag_token text start ≠ Except.ok Option.none := by
  have h0 : start < text.length := lt_of_le_of_lt (Nat.le_succ start) hlen
  have hget : text[start] = '[' := by
    have := List.getElem?_eq_getElem h0
    rw [this] at hc
    exact Option.some.inj hc
  have hdrop : text.drop start = '[' :: text.drop (start + 1) := by
    rw [List.drop_eq_getElem_cons h0, hget]
  have hne : text.drop (start + 1) ≠ [] := by
    intro hnil
    have := List.drop_eq_nil_iff.mp hnil
    omega
  obtain ⟨d, rest, hdr⟩ : ∃ d rest, text.drop (start + 1) = d :: rest := by
    cases hr : text.drop (start + 1) with
    | nil => exact absurd hr hne
    | cons d rest => exact ⟨d, rest, rfl⟩
  intro hEq
  unfold read_tag_token at hEq
  rw [hdrop, hdr] at hEq
  simp only [ne_eq, reduceIte] at hEq
  repeat' split at hEq
  all_goals simp_all

/-- C6 (witness): `"[!"` has a `[` at position 0 with a character after
it; the token is invalid and the scanner raises rather than skipping. -/
theorem c6_no_silent_skip_witness :
    "[!".toList[0]? = Option.some '[' ∧ 0 + 1 < "[!".toList.length ∧
    read_tag_token "[!".toList 0 ≠ Except.ok Option.none :=
  ⟨rfl, by decide, c6_no_silent_skip "[!".toList 0 rfl (by decide)⟩

/-- The identifier rule as the spec words it for general identifiers:
starts with a letter or underscore, contains only
alphanumerics/underscore/hyphen, and does not start or end with the
double-underscore sentinel. -/
def specIdentCore (s : String) : Prop :=
  s ≠ "" ∧ pyStartsWith s "__" = false ∧ pyEndsWith s "__" = false ∧
  isIdentStart (s.toList.headD ' ') = true ∧ ∀ c ∈ s.toList, isIdentChar c = true

/-- The identifier rule as the spec words it for hook names: dot and
colon are additionally allowed. -/
def specIdentBridge (s : String) : Prop :=
  s ≠ "" ∧ pyStartsWith s "__" = false ∧ pyEndsWith s "__" = false ∧
  isIdentStart (s.toList.headD ' ') = true ∧
  ∀ c ∈ s.toList, (isIdentChar c || c = '.' || c = ':') = true

/-- `core._validate_identifier` accepts exactly the spec's identifier
rule. -/
theorem coreValidateIdentifier_iff (s : String) :
    coreValidateIdentifier s = Except.ok () ↔ specIdentCore s := by
  unfold coreValidateIdentifier specIdentCore
  split_ifs with h1 h2 h3 h4
  · simp only [reduceCtorEq, false_iff]
    intro hspec
    exact hspec.1 (String.isEmpty_iff s |>.mp h1)
  · simp only [reduceCtorEq, false_iff]
    intro hspec
    rcases (by simpa using h2 : pyStartsWith s "__" = true ∨ pyEndsWith s "__" = true) with h | h
    · rw [hspec.2.1] at h; cases h
    · rw [hspec.2.2.1] at h; cases h
  · simp only [reduceCtorEq, false_iff]
    intro hspec
    simp only [Bool.not_eq_true'] at h3
    rw [hspec.2.2.2.1] at h3; cases h3
  · simp only [reduceCtorEq, false_iff]
    intro hspec
    simp only [Bool.not_eq_true'] at h4
    have hall : s.toList.all (fun c => c.isAlphanum || c = '_' || c = '-') = true :=
      List.all_eq_true.mpr (fun c hc => hspec.2.2.2.2 c hc)
    rw [hall] at h4; cases h4
  · simp only [true_iff]
    simp only [Bool.not_eq_true, Bool.not_eq_false'] at h3 h4
    have h2' : pyStartsWith s "__" = false ∧ pyEndsWith s "__" = false := by
      constructor <;> (cases hb : pyStartsWith s "__" <;> cases hc : pyEndsWith s "__" <;>
        simp_all)
    refine ⟨fun hs => h1 (by rw [hs]; rfl), h2'.1, h2'.2, h3, ?_⟩
    exact fun c hc => List.all_eq_true.mp h4 c hc

/-- `busy_bridge._validate_identifier` accepts exactly the spec's
hook-name identifier rule. -/
theorem bridgeValidateIdentifier_iff (s : String) :
    bridgeValidateIdentifier s = Except.ok () ↔ specIdentBridge s := by
  unfold bridgeValidateIdentifier specIdentBridge
  split_ifs with h1 h2 h3 h4
  · simp only [reduceCtorEq, false_iff]
    intro hspec
    exact hspec.1 (String.isEmpty_iff s |>.mp h1)
  · simp only [reduceCtorEq, false_iff]
    intro hspec
    rcases (by simpa using h2 : pyStartsWith s "__" = true ∨ pyEndsWith s "__" = true) with h | h
    · rw [hspec.2.1] at h; cases h
    · rw [hspec.2.2.1] at h; cases h
  · simp only [reduceCtorEq, false_iff]
    intro hspec
    simp only [Bool.not_eq_true'] at h3
    rw [hspec.2.2.2.1] at h3; cases h3
  · simp only [reduceCtorEq, false_iff]
    intro hspec
    simp only [Bool.not_eq_true'] at h4
    have hall : s.toList.all
        (fun c => c.isAlphanum || c = '_' || c = '-' || c = '.' || c = ':') = true := by
      refine List.all_eq_true.mpr (fun c hc => ?_)
      have := hspec.2.2.2.2 c hc
      simpa [isIdentChar, Bool.or_assoc] using this
    rw [hall] at h4; cases h4
  · simp only [true_iff]
    simp only [Bool.not_eq_true, Bool.not_eq_false'] at h3 h4
    have h2' : pyStartsWith s "__" = false ∧ pyEndsWith s "__" = false := by
      constructor <;> (cases hb : pyStartsWith s "__" <;> cases hc : pyEndsWith s "__" <;>
        simp_all)
    refine ⟨fun hs => h1 (by rw [hs]; rfl), h2'.1, h2'.2, h3, ?_⟩
    intro c hc
    have := List.all_eq_true.mp h4 c hc
    simpa [isIdentChar, Bool.or_assoc] using this

/-- Every character the `_read_identifier` loop takes satisfies the
identifier-character set. -/
theorem identLen_take (l : List Char) : ∀ c ∈ l.take (identLen l), isIdentChar c = true := by
  induction l with
  | nil => intro c hc; simp at hc
  | cons x xs ih =>
    intro c hc
    unfold identLen at hc
    by_cases hx : isIdentChar x
    · rw [if_pos hx, List.take_succ_cons] at hc
      rcases List.mem_cons.mp hc with h | h
      · subst h; exact hx
      · exact ih c h
    · rw [if_neg hx] at hc; simp at hc

/-- An identifier-start character is also an identifier character. -/
theorem identStart_isIdentChar {c : Char} (h : isIdentStart c = true) :
    isIdentChar c = true := by
  simp [isIdentStart] at h
  rcases h with h | h <;> simp [isIdentChar, Char.isAlphanum, h]

/-- Identifiers the parser reads start with a letter or underscore and
contain only identifier characters (the parser enforces no
double-underscore rule — see the counterexample). -/
theorem read_identifier_chars (text : List Char) (start : Nat) (name : String) (e : Nat)
    (h : read_identifier text start = (Option.some name, e)) :
    isIdentStart (name.toList.headD ' ') = true ∧ ∀ c ∈ name.toList, isIdentChar c = true := by
  unfold read_identifier at h
  cases hdrop : text.drop start with
  | nil => rw [hdrop] at h; simp at h
  | cons c rest =>
    rw [hdrop] at h
    by_cases hs : isIdentStart c = true
    · simp only [hs, if_true, Prod.mk.injEq, Option.some.injEq] at h
      obtain ⟨hname, _⟩ := h
      have hslice : (pySlice text start (start + 1 + identLen rest)).toList =
          c :: rest.take (identLen rest) := by
        unfold pySlice
        rw [hdrop]
        have harith : start + 1 + identLen rest - start = identLen rest + 1 := by omega
        rw [harith, List.take_succ_cons]
        rfl
      rw [← hname, hslice]
      refine ⟨hs, ?_⟩
      intro ch hch
      rcases List.mem_cons.mp hch with hh | hh
      · subst hh; exact identStart_isIdentChar hs
      · exact identLen_take rest ch hh
    · simp only [hs, if_false] at h
      simp at h

/-- C9 (amended): the registration/execution-time validators (`core`
and `busy_bridge` `_validate_identifier`) enforce exactly the claimed
rule — start with a letter or underscore, only
alphanumerics/underscore/hyphen (plus dot/colon for hook names), and no
leading or trailing double underscore — failing the call otherwise; the
*parser* enforces only the start-character and character-set rules (the
double-underscore violations parse successfully and are rejected only
at execution/registration time, per the counterexample). -/
theorem c9_identifier_rule_enforcement :
    (∀ s, coreValidateIdentifier s = Except.ok () ↔ specIdentCore s) ∧
    (∀ s, bridgeValidateIdentifier s = Except.ok () ↔ specIdentBridge s) ∧
    (∀ (text : List Char) (start : Nat) (name : String) (e : Nat),
      read_identifier text start = (Option.some name, e) →
      isIdentStart (name.toList.headD ' ') = true ∧
        ∀ c ∈ name.toList, isIdentChar c = true) :=
  ⟨coreValidateIdentifier_iff, bridgeValidateIdentifier_iff, read_identifier_chars⟩

/-- C9 (witness): the validator accepts `"tool-name"`, and the parser's
identifier guarantee holds for the concrete read of `"abc"`. -/
theorem c9_identifier_rule_witness :
    coreValidateIdentifier "tool-name" = Except.ok () ∧
    (isIdentStart ("abc".toList.headD ' ') = true ∧
      ∀ c ∈ "abc".toList, isIdentChar c = true) :=
  ⟨(c9_identifier_rule_enforcement.1 "tool-name").mpr
      ⟨by decide, rfl, rfl, by decide, by decide⟩,
    c9_identifier_rule_enforcement.2.2 "abc".toList 0 "abc" 3 rfl⟩

/-- C1 (counterexample): with an allow-list that is present but *empty*,
the Context dispatch path (`validate_action_metadata`) rejects every
action — `allowed is not None` holds for `[]` and no action is a member
— while the registry's own path (`_validate_namespace_action`) treats
the same empty list as unrestricted.  This refutes "an absent or empty
allow-list permits any action" for the Context path. -/
theorem c1_empty_allowlist_counterexample :
    validate_action_metadata NamespaceRegistry.empty "ns" "act"
      (Option.some [("allowed_actions", PyVal.plist [] true)]) =
      Except.error "Action 'act' is not allowed for namespace 'ns'" ∧
    validate_namespace_action ⟨[], [("ns", [("allowed_actions", PyVal.plist [] true)])]⟩
      "ns" "act" = Except.ok () := by
  exact ⟨rfl, rfl⟩

/-- On the registry execute path, an action outside a validated,
non-empty allow-list makes `NamespaceRegistry.execute` raise the
authorization error. -/
theorem registryExecute_blocks_disallowed (reg : NamespaceRegistry) (ns action : String)
    (attrs : Option (List (String × PyVal))) (md : List (String × PyVal)) (L : List String)
    (hns : bridgeValidateIdentifier ns = Except.ok ())
    (hact : bridgeValidateIdentifier action = Except.ok ())
    (hmd : registryGetMetadata reg ns = Except.ok md)
    (hallow : allowed_actions md = Except.ok (Option.some L))
    (hnotin : L.contains action = false) :
    registryExecute reg ns action attrs =
      Except.error ("Action '" ++ action ++ "' is not allowed for namespace '" ++ ns ++ "'") := by
  unfold registryExecute validate_namespace_action
  have hmem : action ∉ L := by simpa using hnotin
  simp [hns, hact, hmd, hallow, hmem]

/-- An absent `allowed_actions` key means no restriction on the registry
path. -/
theorem allowed_actions_absent (md : List (String × PyVal))
    (h : dictGet md "allowed_actions" = Option.none) :
    allowed_actions md = Except.ok Option.none := by
  unfold allowed_actions
  cases hm : md with
  | nil => rfl
  | cons p rest =>
    rw [← hm, h]
    simp [hm, validate_allowed_action_list]

/-- An *empty* `allowed_actions` list also means no restriction on the
registry path (`set(allowed) if allowed else None`). -/
theorem allowed_actions_empty (md : List (String × PyVal)) (b : Bool)
    (h : dictGet md "allowed_actions" = Option.some (PyVal.plist [] b)) :
    allowed_actions md = Except.ok Option.none := by
  unfold allowed_actions
  have hne : md ≠ [] := by
    intro hnil
    rw [hnil] at h
    simp [dictGet] at h
  cases hm : md with
  | nil => exact absurd hm hne
  | cons p rest =>
    rw [← hm, h]
    simp [hm, validate_allowed_action_list, validate_allowed_action_list.collect]

/-- With no restriction, `_validate_namespace_action` passes every valid
action. -/
theorem validate_namespace_action_unrestricted (reg : NamespaceRegistry)
    (ns action : String) (md : List (String × PyVal))
    (hact : bridgeValidateIdentifier action = Except.ok ())
    (hmd : registryGetMetadata reg ns = Except.ok md)
    (hallow : allowed_actions md = Except.ok Option.none) :
    validate_namespace_action reg ns action = Except.ok () := by
  unfold validate_namespace_action
  simp [hact, hmd, hallow]

/-- On the Context dispatch path, an action outside the validated
allow-list is rejected — including for an empty list, which rejects
every action. -/
theorem validate_action_metadata_blocks (bridge : NamespaceRegistry) (ns action : String)
    (m : List (String × PyVal)) (v : PyVal) (L : List String)
    (hns : bridgeValidateIdentifier ns = Except.ok ())
    (hact : bridgeValidateIdentifier action = Except.ok ())
    (hm : m ≠ [])
    (hv : dictGet m "allowed_actions" = Option.some v) (hvn : v ≠ PyVal.none)
    (hL : validate_allowed_action_list ns (Option.some v) = Except.ok L)
    (hnotin : L.contains action = false) :
    validate_action_metadata bridge ns action (Option.some m) =
      Except.error ("Action '" ++ action ++ "' is not allowed for namespace '" ++ ns ++ "'") := by
  unfold validate_action_metadata
  have hemp : m.isEmpty = false := by
    cases m with
    | nil => exact absurd rfl hm
    | cons a l => rfl
  have hmem : action ∉ L := by simpa using hnotin
  rw [hns, hact]
  simp only [hemp, Bool.false_eq_true, if_false, hv]
  cases v with
  | none => exact absurd rfl hvn
  | str s => simp [hL, hmem]
  | int n => simp [hL, hmem]
  | bool b => simp [hL, hmem]
  | pdict es mm => simp [hL, hmem]
  | plist xs mm => simp [hL, hmem]
  | pset xs mm => simp [hL, hmem]

/-- On the Context dispatch path, an allow-listed action passes (when
the forbid flag is not set). -/
theorem validate_action_metadata_member_ok (bridge : NamespaceRegistry) (ns action : String)
    (m : List (String × PyVal)) (v : PyVal) (L : List String)
    (hns : bridgeValidateIdentifier ns = Except.ok ())
    (hact : bridgeValidateIdentifier action = Except.ok ())
    (hm : m ≠ [])
    (hv : dictGet m "allowed_actions" = Option.some v) (hvn : v ≠ PyVal.none)
    (hL : validate_allowed_action_list ns (Option.some v) = Except.ok L)
    (hin : L.contains action = true)
    (hforbid : (dictGet m "forbid_dangermeta").elim false PyVal.truthy = false) :
    validate_action_metadata bridge ns action (Option.some m) = Except.ok () := by
  unfold validate_action_metadata
  have hemp : m.isEmpty = false := by
    cases m with
    | nil => exact absurd rfl hm
    | cons a l => rfl
  have hmem : action ∈ L := by simpa using hin
  rw [hns, hact]
  simp only [hemp, Bool.false_eq_true, if_false, hv]
  cases v with
  | none => exact absurd rfl hvn
  | str s => simp [hL, hmem, hforbid]
  | int n => simp [hL, hmem, hforbid]
  | bool b => simp [hL, hmem, hforbid]
  | pdict es mm => simp [hL, hmem, hforbid]
  | plist xs mm => simp [hL, hmem, hforbid]
  | pset xs mm => simp [hL, hmem, hforbid]

/-- On the Context dispatch path, an absent allow-list permits every
valid action (when the forbid flag is not set). -/
theorem validate_action_metadata_absent_ok (bridge : NamespaceRegistry) (ns action : String)
    (m : List (String × PyVal))
    (hns : bridgeValidateIdentifier ns = Except.ok ())
    (hact : bridgeValidateIdentifier action = Except.ok ())
    (hm : m ≠ [])
    (hv : dictGet m "allowed_actions" = Option.none)
    (hforbid : (dictGet m "forbid_dangermeta").elim false PyVal.truthy = false) :
    validate_action_metadata bridge ns action (Option.some m) = Except.ok () := by
  unfold validate_action_metadata
  have hemp : m.isEmpty = false := by
    cases m with
    | nil => exact absurd rfl hm
    | cons a l => rfl
  rw [hns, hact]
  simp only [hemp, Bool.false_eq_true, if_false, hv]
  simp [hforbid]

/-- C1 (amended): executing a namespaced action not in a non-empty
allow-list raises the authorization error on both paths; an absent *or
empty* allow-list is unrestricted on the registry execute path; on the
Context dispatch path (`validate_action_metadata`) an *absent*
allow-list permits any valid action but any *present* allow-list — the
empty one included — rejects every action outside it (so a present,
empty allow-list rejects everything there, per the counterexample). -/
theorem c1_allowlist_enforcement :
    (∀ (reg : NamespaceRegistry) (ns action : String)
       (attrs : Option (List (String × PyVal))) (md : List (String × PyVal)) (L : List String),
      bridgeValidateIdentifier ns = Except.ok () →
      bridgeValidateIdentifier action = Except.ok () →
      registryGetMetadata reg ns = Except.ok md →
      allowed_actions md = Except.ok (Option.some L) →
      L.contains action = false →
      registryExecute reg ns action attrs =
        Except.error ("Action '" ++ action ++ "' is not allowed for namespace '" ++ ns ++ "'")) ∧
    (∀ md, dictGet md "allowed_actions" = Option.none →
      allowed_actions md = Except.ok Option.none) ∧
    (∀ md b, dictGet md "allowed_actions" = Option.some (PyVal.plist [] b) →
      allowed_actions md = Except.ok Option.none) ∧
    (∀ (reg : NamespaceRegistry) (ns action : String) (md : List (String × PyVal)),
      bridgeValidateIdentifier action = Except.ok () →
      registryGetMetadata reg ns = Except.ok md →
      allowed_actions md = Except.ok Option.none →
      validate_namespace_action reg ns action = Except.ok ()) ∧
    (∀ (bridge : NamespaceRegistry) (ns action : String)
       (m : List (String × PyVal)) (v : PyVal) (L : List String),
      bridgeValidateIdentifier ns = Except.ok () →
      bridgeValidateIdentifier action = Except.ok () →
      m ≠ [] → dictGet m "allowed_actions" = Option.some v → v ≠ PyVal.none →
      validate_allowed_action_list ns (Option.some v) = Except.ok L →
      L.contains action = false →
      validate_action_metadata bridge ns action (Option.some m) =
        Except.error ("Action '" ++ action ++ "' is not allowed for namespace '" ++ ns ++ "'")) ∧
    (∀ (bridge : NamespaceRegistry) (ns action : String)
       (m : List (String × PyVal)) (v : PyVal) (L : List String),
      bridgeValidateIdentifier ns = Except.ok () →
      bridgeValidateIdentifier action = Except.ok () →
      m ≠ [] → dictGet m "allowed_actions" = Option.some v → v ≠ PyVal.none →
      validate_allowed_action_list ns (Option.some v) = Except.ok L →
      L.contains action = true →
      (dictGet m "forbid_dangermeta").elim false PyVal.truthy = false →
      validate_action_metadata bridge ns action (Option.some m) = Except.ok ()) ∧
    (∀ (bridge : NamespaceRegistry) (ns action : String) (m : List (String × PyVal)),
      bridgeValidateIdentifier ns = Except.ok () →
      bridgeValidateIdentifier action = Except.ok () →
      m ≠ [] → dictGet m "allowed_actions" = Option.none →
      (dictGet m "forbid_dangermeta").elim false PyVal.truthy = false →
      validate_action_metadata bridge ns action (Option.some m) = Except.ok ()) :=
  ⟨registryExecute_blocks_disallowed, allowed_actions_absent, allowed_actions_empty,
    validate_namespace_action_unrestricted, validate_action_metadata_blocks,
    validate_action_metadata_member_ok, validate_action_metadata_absent_ok⟩

/-- C1 (witness): the registry with allow-list `["ping"]` rejects
`pong`, and an absent allow-list permits `anything` on the Context
path. -/
theorem c1_allowlist_witness :
    registryExecute
        ⟨[("strict", fun _ _ => Except.ok PyVal.none)],
         [("strict", [("allowed_actions", PyVal.plist [PyVal.str "ping"] true)])]⟩
        "strict" "pong" Option.none =
      Except.error "Action 'pong' is not allowed for namespace 'strict'" ∧
    validate_action_metadata NamespaceRegistry.empty "free" "anything"
        (Option.some [("noResponse", PyVal.bool true)]) = Except.ok () :=
  ⟨c1_allowlist_enforcement.1
      ⟨[("strict", fun _ _ => Except.ok PyVal.none)],
       [("strict", [("allowed_actions", PyVal.plist [PyVal.str "ping"] true)])]⟩
      "strict" "pong" Option.none
      [("allowed_actions", PyVal.plist [PyVal.str "ping"] true)] ["ping"]
      rfl rfl rfl rfl rfl,
    c1_allowlist_enforcement.2.2.2.2.2.2 NamespaceRegistry.empty "free" "anything"
      [("noResponse", PyVal.bool true)] rfl rfl (by simp) rfl rfl⟩

/-- `_ensure_removal_allowed` raises on a critical hook whenever the
override flag is missing or the token does not match the configured
secret. -/
theorem ensure_removal_blocked (cfgToken hook : String) (allow : Bool) (tok : Option String)
    (hcrit : criticalHooks.contains hook = true)
    (hfail : allow = false ∨ tok ≠ Option.some cfgToken) :
    ∃ e, ensure_removal_allowed cfgToken hook allow tok = Except.error e := by
  unfold ensure_removal_allowed
  rw [hcrit]
  cases allow with
  | false => exact ⟨_, rfl⟩
  | true =>
    rcases hfail with h | h
    · cases h
    · by_cases hc : cfgToken.isEmpty = true
      · simp [hc]
      · cases tok with
        | none => simp [hc]
        | some t =>
          have ht : t ≠ cfgToken := fun he => h (by rw [he])
          simp [hc, ht]

/-- `_ensure_removal_allowed` passes with the override flag and a token
matching the configured (non-empty) secret. -/
theorem ensure_removal_passes (cfgToken hook : String) (hne : cfgToken ≠ "")
    (hcrit : criticalHooks.contains hook = true) :
    ensure_removal_allowed cfgToken hook true (Option.some cfgToken) = Except.ok () := by
  unfold ensure_removal_allowed
  rw [hcrit]
  have hc : cfgToken.isEmpty = false := by
    cases hh : cfgToken.isEmpty
    · rfl
    · exact absurd (String.isEmpty_iff cfgToken |>.mp hh) hne
  simp [hc]

/-- Once the removal guard passes, `_remove_one` never raises. -/
theorem busyRemoveOne_ok {κ : Type} [DecidableEq κ] (cfgToken : String)
    (buckets : List (String × List (HookEntry κ))) (hook : String) (key : RemovalKey κ)
    (allow : Bool) (tok : Option String)
    (h : ensure_removal_allowed cfgToken hook allow tok = Except.ok ()) :
    (busyRemoveOne cfgToken buckets hook key allow tok).isOk = true := by
  unfold busyRemoveOne
  rw [h]
  cases hget : dictGet buckets hook with
  | none => rfl
  | some entries =>
    by_cases he : entries.isEmpty = true
    · simp [he, Except.isOk, Except.toBool]
    · simp only [he, Bool.false_eq_true, if_false]
      split <;> simp [Except.isOk, Except.toBool]

/-- C2: for a critical hook name, each of `remove_action`,
`remove_filter`, `remove_all_actions`, `remove_all_filters` raises a
PermissionError when `allow_critical` is not passed or the removal token
does not match the configured secret (the guard runs before any state is
touched, so the registrations are unchanged — an `Except.error` result
carries no new registry state); with `allow_critical=True` and a token
equal to the configured non-empty secret, every removal call
succeeds. -/
theorem c2_critical_hook_removal (κ : Type) [DecidableEq κ] (cfgToken : String)
    (reg : BusyHookRegistry κ) (hook : String) (key : RemovalKey κ)
    (allow : Bool) (tok : Option String)
    (hcrit : criticalHooks.contains hook = true) :
    ((allow = false ∨ tok ≠ Option.some cfgToken) →
      (∃ e, busyRemoveAction cfgToken reg hook key allow tok = Except.error e) ∧
      (∃ e, busyRemoveFilter cfgToken reg hook key allow tok = Except.error e) ∧
      (∃ e, busyRemoveAllActions cfgToken reg hook allow tok = Except.error e) ∧
      (∃ e, busyRemoveAllFilters cfgToken reg hook allow tok = Except.error e)) ∧
    (allow = true → cfgToken ≠ "" → tok = Option.some cfgToken →
      (busyRemoveAction cfgToken reg hook key allow tok).isOk = true ∧
      (busyRemoveFilter cfgToken reg hook key allow tok).isOk = true ∧
      (busyRemoveAllActions cfgToken reg hook allow tok).isOk = true ∧
      (busyRemoveAllFilters cfgToken reg hook allow tok).isOk = true) := by
  constructor
  · intro hfail
    obtain ⟨e, he⟩ := ensure_removal_blocked cfgToken hook allow tok hcrit hfail
    refine ⟨⟨e, ?_⟩, ⟨e, ?_⟩, ⟨e, ?_⟩, ⟨e, ?_⟩⟩
    · unfold busyRemoveAction busyRemoveOne; rw [he]
    · unfold busyRemoveFilter busyRemoveOne; rw [he]
    · unfold busyRemoveAllActions; rw [he]
    · unfold busyRemoveAllFilters; rw [he]
  · intro hallow hne htok
    subst hallow htok
    have hok := ensure_removal_passes cfgToken hook hne hcrit
    refine ⟨?_, ?_, ?_, ?_⟩
    · unfold busyRemoveAction
      cases hrem : busyRemoveOne cfgToken reg.actions hook key true (Option.some cfgToken) with
      | error e =>
        have := busyRemoveOne_ok cfgToken reg.actions hook key true (Option.some cfgToken) hok
        rw [hrem] at this
        cases this
      | ok p =>
        cases p with
        | mk removed buckets => simp [hrem, Except.isOk, Except.toBool]
    · unfold busyRemoveFilter
      cases hrem : busyRemoveOne cfgToken reg.filters hook key true (Option.some cfgToken) with
      | error e =>
        have := busyRemoveOne_ok cfgToken reg.filters hook key true (Option.some cfgToken) hok
        rw [hrem] at this
        cases this
      | ok p =>
        cases p with
        | mk removed buckets => simp [hrem, Except.isOk, Except.toBool]
    · unfold busyRemoveAllActions
      rw [hok]
      rfl
    · unfold busyRemoveAllFilters
      rw [hok]
      rfl

/-- C2 (witness): on the critical hook `busy38.pre_cheatcode_execute`
with secret `"secret"`, removal without the flag raises and removal with
flag and matching token succeeds. -/
theorem c2_critical_hook_removal_witness :
    (∃ e, busyRemoveAction "secret"
        (⟨[("busy38.pre_cheatcode_execute", [⟨7, 10, "hook-0", 0⟩])], [], 1, 0⟩ :
          BusyHookRegistry Nat)
        "busy38.pre_cheatcode_execute" (RemovalKey.byId "hook-0") false Option.none =
        Except.error e) ∧
    (busyRemoveAction "secret"
        (⟨[("busy38.pre_cheatcode_execute", [⟨7, 10, "hook-0", 0⟩])], [], 1, 0⟩ :
          BusyHookRegistry Nat)
        "busy38.pre_cheatcode_execute" (RemovalKey.byId "hook-0") true
        (Option.some "secret")).isOk = true :=
  ⟨((c2_critical_hook_removal Nat "secret"
      ⟨[("busy38.pre_cheatcode_execute", [⟨7, 10, "hook-0", 0⟩])], [], 1, 0⟩
      "busy38.pre_cheatcode_execute" (RemovalKey.byId "hook-0") false Option.none
      rfl).1 (Or.inl rfl)).1,
   ((c2_critical_hook_removal Nat "secret"
      ⟨[("busy38.pre_cheatcode_execute", [⟨7, 10, "hook-0", 0⟩])], [], 1, 0⟩
      "busy38.pre_cheatcode_execute" (RemovalKey.byId "hook-0") true (Option.some "secret")
      rfl).2 rfl (by decide) rfl).1⟩

/-- C8: callback failures are isolated at the registry boundary (the
embeddings of `do_action` and of the filter chains are total functions —
no callback exception ever reaches the caller): `do_action` runs one
try/except envelope per registered callback, so the trace always has
one outcome per callback and a failing callback changes nothing for the
callbacks after it; with no registered filters, `Filters.apply_filters`
and `BusyHookRegistry.apply` return the original value untouched; and in
a filter chain a callback that raises leaves the previous chained value
in place while the chain continues. -/
theorem c8_callback_isolation :
    (∀ (callbacks : List Callback) (args : List PyVal) (kwargs : List (String × PyVal)),
      (doActionTrace callbacks args kwargs).length = callbacks.length) ∧
    (∀ (cbs1 cbs2 : List Callback) (f : Callback) (args : List PyVal)
        (kwargs : List (String × PyVal)),
      doActionTrace (cbs1 ++ f :: cbs2) args kwargs =
        doActionTrace cbs1 args kwargs ++
          f (freeze_args args kwargs).1 (freeze_args args kwargs).2 ::
          doActionTrace cbs2 args kwargs) ∧
    (∀ (value : PyVal) (args : List PyVal) (kwargs : List (String × PyVal)),
      apply_filters [] value args kwargs = value) ∧
    (∀ (value : PyVal) (args : List PyVal) (kwargs : List (String × PyVal)),
      busyApply [] value args kwargs = value) ∧
    (∀ (cbs1 cbs2 : List Callback) (f : Callback) (value : PyVal) (safeArgs : List PyVal)
        (safeKwargs : List (String × PyVal)),
      (∀ v, (f (v :: safeArgs) safeKwargs).isOk = false) →
      filterChain (cbs1 ++ f :: cbs2) value safeArgs safeKwargs =
        filterChain (cbs1 ++ cbs2) value safeArgs safeKwargs) := by
  refine ⟨?_, ?_, fun v a k => rfl, fun v a k => rfl, ?_⟩
  · intro callbacks args kwargs
    unfold doActionTrace
    simp
  · intro cbs1 cbs2 f args kwargs
    unfold doActionTrace
    simp
  · intro cbs1 cbs2 f value sa sk hf
    unfold filterChain
    rw [List.foldl_append, List.foldl_append, List.foldl_cons]
    congr 1
    set mid := List.foldl
      (fun current cb =>
        match cb (current :: sa) sk with
        | Except.ok next => next
        | Except.error _ => current) value cbs1 with hmid
    show (match f (mid :: sa) sk with
      | Except.ok next => next
      | Except.error _ => mid) = mid
    cases hfv : f (mid :: sa) sk with
    | ok r =>
      have := hf mid
      rw [hfv] at this
      cases this
    | error e => rfl

/-- C8 (witness): a chain with an always-raising middle callback
computes the same value as the chain without it. -/
theorem c8_callback_isolation_witness :
    filterChain
        (([fun _ _ => Except.ok (PyVal.int 1)] : List Callback) ++
          (((fun _ _ => Except.error "boom") ::
            [fun _ _ => Except.ok (PyVal.int 2)]) : List Callback))
        (PyVal.int 0) [] [] =
      filterChain
        (([fun _ _ => Except.ok (PyVal.int 1)] : List Callback) ++
          ([fun _ _ => Except.ok (PyVal.int 2)] : List Callback))
        (PyVal.int 0) [] [] :=
  c8_callback_isolation.2.2.2.2
    ([fun _ _ => Except.ok (PyVal.int 1)] : List Callback)
    ([fun _ _ => Except.ok (PyVal.int 2)] : List Callback)
    ((fun _ _ => Except.error "boom") : Callback) (PyVal.int 0) [] [] (fun _ => rfl)

/-! Helper lemmas for the parameter-smuggling claim. -/

/-- `_merge_call_kwargs` raises the parameter-smuggling error exactly
when some attribute key also occurs among the runtime keyword
arguments. -/
theorem merge_err (attrs : List (String × String)) (kwargs : List (String × PyVal))
    (h : overlapKeys attrs kwargs ≠ []) :
    merge_call_kwargs attrs kwargs = Except.error (smugglingMsg (overlapKeys attrs kwargs)) := by
  unfold merge_call_kwargs
  have : (overlapKeys attrs kwargs).isEmpty = false := by
    cases ho : overlapKeys attrs kwargs with
    | nil => exact absurd ho h
    | cons a l => rfl
  simp [this]

/-- With an attribute/kwarg collision, `_execute_cheatcode` raises on
every path and performs no handler invocation. -/
theorem cheatcode_smuggle (ctx : Context) (bridge : NamespaceRegistry) (tag : Tag)
    (kwargs : List (String × PyVal))
    (hover : overlapKeys tag.attributes kwargs ≠ []) :
    (execute_cheatcode ctx bridge tag kwargs).2 = [] ∧
    (execute_cheatcode ctx bridge tag kwargs).1.isOk = false := by
  unfold execute_cheatcode
  have hmerr : merge_call_kwargs tag.attributes (freeze_kwargs kwargs) =
      Except.error (smugglingMsg (overlapKeys tag.attributes kwargs)) :=
    merge_err tag.attributes kwargs hover
  cases hl : dictGet ctx.handlers (nsString tag ++ ":" ++ tag.action) with
  | some lh => simp [hl, hmerr, Except.isOk, Except.toBool]
  | none =>
    cases hr : resolveNamespaceHandler ctx bridge (nsString tag) with
    | none => simp [hl, hr, Except.isOk, Except.toBool]
    | some nsh =>
      cases hv : validate_action_metadata bridge (nsString tag) tag.action
          (Option.some (resolveNamespaceMetadata ctx bridge (nsString tag))) with
      | error e => simp [hl, hr, hv, Except.isOk, Except.toBool]
      | ok u => cases u; simp [hl, hr, hv, hmerr, Except.isOk, Except.toBool]

/-- On the locally-registered-handler path, the collision surfaces as
the parameter-smuggling error with no handler call. -/
theorem cheatcode_smuggle_local (ctx : Context) (bridge : NamespaceRegistry) (tag : Tag)
    (kwargs : List (String × PyVal)) (lh : LocalHandler)
    (hover : overlapKeys tag.attributes kwargs ≠ [])
    (hl : dictGet ctx.handlers (nsString tag ++ ":" ++ tag.action) = Option.some lh) :
    execute_cheatcode ctx bridge tag kwargs =
      (Except.error (smugglingMsg (overlapKeys tag.attributes kwargs)), []) := by
  unfold execute_cheatcode
  simp [freeze_kwargs, hl, merge_err tag.attributes kwargs hover]

/-- On the namespace-handler path (handler resolved, metadata check
passed), the collision surfaces as the parameter-smuggling error with
no handler call. -/
theorem cheatcode_smuggle_ns (ctx : Context) (bridge : NamespaceRegistry) (tag : Tag)
    (kwargs : List (String × PyVal)) (nsh : NsHandler)
    (hover : overlapKeys tag.attributes kwargs ≠ [])
    (hl : dictGet ctx.handlers (nsString tag ++ ":" ++ tag.action) = Option.none)
    (hr : resolveNamespaceHandler ctx bridge (nsString tag) = Option.some nsh)
    (hv : validate_action_metadata bridge (nsString tag) tag.action
      (Option.some (resolveNamespaceMetadata ctx bridge (nsString tag))) = Except.ok ()) :
    execute_cheatcode ctx bridge tag kwargs =
      (Except.error (smugglingMsg (overlapKeys tag.attributes kwargs)), []) := by
  unfold execute_cheatcode
  simp [freeze_kwargs, hl, hr, hv, merge_err tag.attributes kwargs hover]

/-- `execute_tag` on a colliding namespaced tag always errors without
any handler invocation. -/
theorem tag_smuggle (ctx : Context) (bridge : NamespaceRegistry) (tag : Tag)
    (kwargs : List (String × PyVal))
    (htype : tag.tag_type = TagType.CHEATCODE)
    (hover : overlapKeys tag.attributes kwargs ≠ []) :
    (execute_tag ctx bridge tag kwargs).2 = [] ∧
    (execute_tag ctx bridge tag kwargs).1.isOk = false := by
  unfold execute_tag
  cases hval : validate_tag_values tag with
  | error e => simp [Except.isOk, Except.toBool]
  | ok u =>
    cases u
    obtain ⟨hcalls, hok⟩ := cheatcode_smuggle ctx bridge tag kwargs hover
    cases hout : execute_cheatcode ctx bridge tag kwargs with
    | mk r calls =>
      rw [hout] at hcalls hok
      cases r with
      | ok v => rw [show (Except.ok v : Except String PyVal).isOk = true from rfl] at hok; cases hok
      | error e =>
        simp at hcalls
        subst hcalls
        simp [htype, hout, Except.isOk, Except.toBool]

/-- Lifts a smuggling error of `_execute_cheatcode` through
`execute_tag` (identifier validation must pass first on this
synchronous path). -/
theorem tag_smuggle_msg (ctx : Context) (bridge : NamespaceRegistry) (tag : Tag)
    (kwargs : List (String × PyVal))
    (htype : tag.tag_type = TagType.CHEATCODE)
    (hval : validate_tag_values tag = Except.ok ())
    (hch : execute_cheatcode ctx bridge tag kwargs =
      (Except.error (smugglingMsg (overlapKeys tag.attributes kwargs)), [])) :
    execute_tag ctx bridge tag kwargs =
      (Except.error (smugglingMsg (overlapKeys tag.attributes kwargs)), []) := by
  unfold execute_tag
  simp [hval, htype, hch]

/-- `execute_async` on a colliding namespaced tag errors without a
handler invocation, and under handler resolution the error is the
parameter-smuggling one (the async path performs no identifier
validation). -/
theorem async_smuggle (ctx : Context) (bridge : NamespaceRegistry) (s : String)
    (kwargs : List (String × PyVal)) (tag : Tag)
    (hparse : parse_tag s = Except.ok tag)
    (htype : tag.tag_type = TagType.CHEATCODE)
    (hover : overlapKeys tag.attributes kwargs ≠ []) :
    ((contextExecuteAsync ctx bridge s kwargs).2 = [] ∧
     (contextExecuteAsync ctx bridge s kwargs).1.isOk = false) ∧
    (∀ lh, dictGet ctx.handlers (nsString tag ++ ":" ++ tag.action) = Option.some lh →
      contextExecuteAsync ctx bridge s kwargs =
        (Except.error (smugglingMsg (overlapKeys tag.attributes kwargs)), [])) ∧
    (∀ nsh, dictGet ctx.handlers (nsString tag ++ ":" ++ tag.action) = Option.none →
      resolveNamespaceHandler ctx bridge (nsString tag) = Option.some nsh →
      validate_action_metadata bridge (nsString tag) tag.action
        (Option.some (resolveNamespaceMetadata ctx bridge (nsString tag))) = Except.ok () →
      contextExecuteAsync ctx bridge s kwargs =
        (Except.error (smugglingMsg (overlapKeys tag.attributes kwargs)), [])) := by
  have hmerr := merge_err tag.attributes kwargs hover
  unfold contextExecuteAsync
  rw [hparse]
  refine ⟨?_, ?_, ?_⟩
  · cases hl : dictGet ctx.handlers (nsString tag ++ ":" ++ tag.action) with
    | some lh => simp [freeze_kwargs, htype, hl, hmerr, Except.isOk, Except.toBool]
    | none =>
      cases hr : resolveNamespaceHandler ctx bridge (nsString tag) with
      | none => simp [htype, hl, hr, Except.isOk, Except.toBool]
      | some nsh =>
        cases hv : validate_action_metadata bridge (nsString tag) tag.action
            (Option.some (resolveNamespaceMetadata ctx bridge (nsString tag))) with
        | error e => simp [htype, hl, hr, hv, Except.isOk, Except.toBool]
        | ok u => cases u; simp [freeze_kwargs, htype, hl, hr, hv, hmerr, Except.isOk, Except.toBool]
  · intro lh hl
    simp [freeze_kwargs, htype, hl, hmerr]
  · intro nsh hl hr hv
    simp [freeze_kwargs, htype, hl, hr, hv, hmerr]

/-- C3: when a key occurs both in a namespaced tag's attributes and in
the caller kwargs, `Context.execute` and `Context.execute_async` never
invoke any handler (the recorded call trace is empty) and always raise;
whenever execution reaches the merge point — on the sync path once the
tag's identifiers validate, on the async path unconditionally, for both
the locally-registered handler and the resolved namespace handler — the
error raised is precisely the parameter-smuggling error. -/
theorem c3_parameter_smuggling_guard (ctx : Context) (bridge : NamespaceRegistry) (s : String)
    (kwargs : List (String × PyVal)) (tag : Tag)
    (hparse : parse_tag s = Except.ok tag)
    (htype : tag.tag_type = TagType.CHEATCODE)
    (hover : overlapKeys tag.attributes kwargs ≠ []) :
    ((contextExecute ctx bridge s kwargs).2 = [] ∧
     (contextExecute ctx bridge s kwargs).1.isOk = false) ∧
    ((contextExecuteAsync ctx bridge s kwargs).2 = [] ∧
     (contextExecuteAsync ctx bridge s kwargs).1.isOk = false) ∧
    (validate_tag_values tag = Except.ok () →
      (∀ lh, dictGet ctx.handlers (nsString tag ++ ":" ++ tag.action) = Option.some lh →
        contextExecute ctx bridge s kwargs =
          (Except.error (smugglingMsg (overlapKeys tag.attributes kwargs)), [])) ∧
      (∀ nsh, dictGet ctx.handlers (nsString tag ++ ":" ++ tag.action) = Option.none →
        resolveNamespaceHandler ctx bridge (nsString tag) = Option.some nsh →
        validate_action_metadata bridge (nsString tag) tag.action
          (Option.some (resolveNamespaceMetadata ctx bridge (nsString tag))) = Except.ok () →
        contextExecute ctx bridge s kwargs =
          (Except.error (smugglingMsg (overlapKeys tag.attributes kwargs)), []))) ∧
    (∀ lh, dictGet ctx.handlers (nsString tag ++ ":" ++ tag.action) = Option.some lh →
      contextExecuteAsync ctx bridge s kwargs =
        (Except.error (smugglingMsg (overlapKeys tag.attributes kwargs)), [])) ∧
    (∀ nsh, dictGet ctx.handlers (nsString tag ++ ":" ++ tag.action) = Option.none →
      resolveNamespaceHandler ctx bridge (nsString tag) = Option.some nsh →
      validate_action_metadata bridge (nsString tag) tag.action
        (Option.some (resolveNamespaceMetadata ctx bridge (nsString tag))) = Except.ok () →
      contextExecuteAsync ctx bridge s kwargs =
        (Except.error (smugglingMsg (overlapKeys tag.attributes kwargs)), [])) := by
  obtain ⟨hasync, hasyncL, hasyncN⟩ := async_smuggle ctx bridge s kwargs tag hparse htype hover
  refine ⟨?_, hasync, ?_, hasyncL, hasyncN⟩
  · have := tag_smuggle ctx bridge tag kwargs htype hover
    unfold contextExecute
    rw [hparse]
    exact this
  · intro hval
    constructor
    · intro lh hl
      unfold contextExecute
      rw [hparse]
      exact tag_smuggle_msg ctx bridge tag kwargs htype hval
        (cheatcode_smuggle_local ctx bridge tag kwargs lh hover hl)
    · intro nsh hl hr hv
      unfold contextExecute
      rw [hparse]
      exact tag_smuggle_msg ctx bridge tag kwargs htype hval
        (cheatcode_smuggle_ns ctx bridge tag kwargs nsh hover hl hr hv)

/-- C3 (witness): `context.execute('[ns:set value="a" /]', value="b")`
with a locally registered `ns:set` handler raises the smuggling error
and records no handler call. -/
theorem c3_parameter_smuggling_witness :
    contextExecute
        ⟨[("ns:set", fun _ _ => Except.ok (PyVal.str "ran"))], [], [], [], false, []⟩
        NamespaceRegistry.empty "[ns:set value=\"a\" /]" [("value", PyVal.str "b")] =
      (Except.error (smugglingMsg (overlapKeys [("value", "a")] [("value", PyVal.str "b")])), []) :=
  ((c3_parameter_smuggling_guard
      ⟨[("ns:set", fun _ _ => Except.ok (PyVal.str "ran"))], [], [], [], false, []⟩
      NamespaceRegistry.empty "[ns:set value=\"a\" /]" [("value", PyVal.str "b")]
      ⟨TagType.CHEATCODE, Option.some "ns", "set", [], [("value", "a")], Option.none,
        "[ns:set value=\"a\" /]"⟩
      rfl rfl (by decide)).2.2.1 rfl).1
    (fun _ _ => Except.ok (PyVal.str "ran")) rfl

/-- C10: when the text parses, `execute_text` returns exactly one
result slot per parsed tag, in source order; slot `i` depends only on
tag `i` (every later tag is executed however an earlier one fared); a
tag whose execution raises contributes the error record
`{"error": str(exc), "tag": tag.raw}` in its own slot, and a tag whose
execution succeeds contributes its result. -/
theorem c10_batch_execution (ctx : Context) (bridge : NamespaceRegistry)
    (text : String) (kwargs : List (String × PyVal)) (tags : List Tag)
    (hparse : parse_all text false = Except.ok tags) :
    execute_text ctx bridge text kwargs =
      Except.ok (tags.map (fun tag => tagSlot ctx bridge tag kwargs)) ∧
    (tags.map (fun tag => tagSlot ctx bridge tag kwargs)).length = tags.length ∧
    (∀ (i : Nat) (tag : Tag), tags[i]? = Option.some tag →
      (tags.map (fun tag => tagSlot ctx bridge tag kwargs))[i]? =
        Option.some (tagSlot ctx bridge tag kwargs)) ∧
    (∀ (tag : Tag) (e : String), (execute_tag ctx bridge tag kwargs).1 = Except.error e →
      tagSlot ctx bridge tag kwargs =
        PyVal.pdict [("error", PyVal.str e), ("tag", PyVal.str tag.raw)] true) ∧
    (∀ (tag : Tag) (v : PyVal), (execute_tag ctx bridge tag kwargs).1 = Except.ok v →
      tagSlot ctx bridge tag kwargs = v) := by
  refine ⟨?_, by simp, ?_, ?_, ?_⟩
  · unfold execute_text
    rw [hparse]
  · intro i tag h
    simp [List.getElem?_map, h]
  · intro tag e h
    unfold tagSlot
    rw [h]
  · intro tag v h
    unfold tagSlot
    rw [h]

/-- C10 (witness): `"[a /][b /]"` against an empty context yields two
slots, both error records, the second tag still executed after the
first failed. -/
theorem c10_batch_execution_witness :
    execute_text Context.empty NamespaceRegistry.empty "[a /][b /]" [] =
      Except.ok
        (([⟨TagType.SINGLE, Option.none, "a", [], [], Option.none, "[a /]"⟩,
           ⟨TagType.SINGLE, Option.none, "b", [], [], Option.none, "[b /]"⟩] : List Tag).map
          (fun tag => tagSlot Context.empty NamespaceRegistry.empty tag [])) ∧
    tagSlot Context.empty NamespaceRegistry.empty
        ⟨TagType.SINGLE, Option.none, "a", [], [], Option.none, "[a /]"⟩ [] =
      PyVal.pdict [("error", PyVal.str "No handler for tag 'a'"),
        ("tag", PyVal.str "[a /]")] true :=
  ⟨(c10_batch_execution Context.empty NamespaceRegistry.empty "[a /][b /]" []
      [⟨TagType.SINGLE, Option.none, "a", [], [], Option.none, "[a /]"⟩,
       ⟨TagType.SINGLE, Option.none, "b", [], [], Option.none, "[b /]"⟩] rfl).1,
   (c10_batch_execution Context.empty NamespaceRegistry.empty "[a /][b /]" []
      [⟨TagType.SINGLE, Option.none, "a", [], [], Option.none, "[a /]"⟩,
       ⟨TagType.SINGLE, Option.none, "b", [], [], Option.none, "[b /]"⟩] rfl).2.2.2.1
     ⟨TagType.SINGLE, Option.none, "a", [], [], Option.none, "[a /]"⟩
     "No handler for tag 'a'" rfl⟩

end CaptainHook
